import Mathlib

/-!
Shallow embedding of the `mcp_hemis_student` repository (src/server.py and
src/client_openai.py) together with proofs about its token cache, its tool
dispatch, its report formatters and its tool-calling orchestrator loop.

JSON payloads are modelled by the inductive `Json`; Python truthiness,
`dict.get`, subscripting, and exceptions are modelled explicitly
(`truthy`, `pyGet`, `pyIndex`, `Except PyErr`).  ISO-8601 expiry
timestamps are modelled as decimal strings of an abstract `Nat` clock:
`isoFormat` renders a timestamp, `isoParse` parses an arbitrary string and
fails on anything that is not a rendered timestamp, matching the partiality
of `datetime.fromisoformat`.
-/

namespace Hemis

/-- A JSON value, as produced by `response.json()` / `json.load`.
Numbers are modelled as integers: every numeric field this server touches
(ids, epoch timestamps, counts, sizes) is integral. -/
inductive Json where
  | null
  | bool (b : Bool)
  | num (n : Int)
  | str (s : String)
  | arr (elems : List Json)
  | obj (fields : List (String × Json))
deriving Repr

/-- The Python exceptions the embedded code can raise. -/
inductive PyErr where
  | keyErr    -- KeyError: subscripting a dict with a missing key
  | typeErr   -- TypeError / AttributeError: operating on a wrongly-typed value
  | valueErr  -- ValueError: e.g. an unparsable timestamp string
  | zeroDiv   -- ZeroDivisionError
deriving Repr, DecidableEq

/-- Python truthiness of a JSON value (`if x:`). -/
def truthy : Json → Bool
  | .null => false
  | .bool b => b
  | .num n => n != 0
  | .str s => s != ""
  | .arr l => !l.isEmpty
  | .obj l => !l.isEmpty

/-- Association-list lookup used for JSON objects (Python dict lookup). -/
def jlookup : List (String × Json) → String → Option Json
  | [], _ => none
  | (k, v) :: rest, key => if k = key then some v else jlookup rest key

/-- Python `d[k]`: `KeyError` if the key is missing, `TypeError` if the
receiver is not a dict. -/
def pyIndex : Json → String → Except PyErr Json
  | .obj fields, k =>
    match jlookup fields k with
    | some v => .ok v
    | none => .error .keyErr
  | _, _ => .error .typeErr

/-- Python `d.get(k)` (default `None`): `AttributeError` if the receiver is
not a dict. -/
def pyGet : Json → String → Except PyErr Json
  | .obj fields, k => .ok ((jlookup fields k).getD .null)
  | _, _ => .error .typeErr

/-- Python `d.get(k, default)`. -/
def pyGetD : Json → String → Json → Except PyErr Json
  | .obj fields, k, dflt => .ok ((jlookup fields k).getD dflt)
  | _, _, _ => .error .typeErr

/-- Python `str()` of a JSON value.  The rendering of lists and dicts is not
modelled precisely (no verified property depends on it). -/
def pyStr : Json → String
  | .null => "None"
  | .bool b => if b then "True" else "False"
  | .num n => toString n
  | .str s => s
  | .arr _ => "<list>"
  | .obj _ => "<dict>"

/-! ### Decimal timestamp strings (model of ISO-8601 expiry strings) -/

/-- Little-endian decimal digits of `n`, with explicit fuel so that the
recursion is structural (and kernel-reducible). -/
def toDigitsRev (fuel n : Nat) : List Nat :=
  match fuel with
  | 0 => []
  | fuel + 1 => if n = 0 then [] else n % 10 :: toDigitsRev fuel (n / 10)

/-- Value of a little-endian decimal digit list. -/
def ofDigitsRev : List Nat → Nat
  | [] => 0
  | d :: rest => d + 10 * ofDigitsRev rest

def digitChar (d : Nat) : Char := Char.ofNat (48 + d)

/-- Decimal rendering of a timestamp; models `datetime.isoformat`. -/
def isoFormat (t : Nat) : String := ⟨((toDigitsRev t t).reverse.map digitChar)⟩

def isDigitChar (c : Char) : Bool := 48 ≤ c.toNat && c.toNat ≤ 57

/-- Partial parser for rendered timestamps; models `datetime.fromisoformat`,
which raises (here: returns `none`) on any string that is not a rendered
timestamp. -/
def isoParse (s : String) : Option Nat :=
  if s.data ≠ [] ∧ s.data.all isDigitChar then
    some (ofDigitsRev ((s.data.map (fun c => c.toNat - 48)).reverse))
  else none

/-- `datetime.fromisoformat` applied to an arbitrary JSON value: a non-string
argument is a `TypeError`, an unparsable string a `ValueError`; both are
collapsed into `none` and the call sites decide whether the raise is caught. -/
def pyFromIso (j : Json) : Option Nat :=
  match j with
  | .str s => isoParse s
  | _ => none

/-! ### Token cache (src/server.py lines 14-113) -/

/-- The in-memory cache slots `_cached_token` / `_token_expiry`.  Python
initialises both to `None`, modelled as `Json.null`. -/
structure Mem where
  cachedToken : Json
  tokenExpiry : Json

/-- The durable token store `token_cache.json`:  either the file is absent
(`os.path.exists` is false), or opening/`json.load` raises (swallowed by the
caller), or it parses to a JSON document. -/
inductive FileState where
  | absent
  | unreadable
  | stored (doc : Json)

/-- `timedelta(days=7)` measured on the model's second-granularity clock. -/
def sevenDays : Nat := 7 * 24 * 60 * 60

/-- The configured credentials `HEMIS_LOGIN` / `HEMIS_PASSWORD`
(`os.getenv` returns `None` when unset). -/
structure Env where
  login : Option String
  password : Option String

/-- Python truthiness of an optional environment string
(`not STUDENT_LOGIN` is true for both `None` and `""`). -/
def truthyStr : Option String → Bool
  | none => false
  | some s => s != ""

/-- One HTTP request issued against the backend; tools are verified to not
issue requests by showing their trace of these is empty. -/
inductive HttpCall where
  | post (endpoint : String)
  | get (endpoint : String)
deriving Repr, DecidableEq

/-- `save_token` (server.py lines 46-60): sets both memory slots to the token
and to `now + 7 days`, then best-effort writes the durable store; a write
failure (`writeOk = false`) is swallowed and leaves the store unchanged. -/
def save_token (tok : Json) (now : Nat) (writeOk : Bool) (fs : FileState) :
    Mem × FileState :=
  let expiryStr : Json := .str (isoFormat (now + sevenDays))
  (⟨tok, expiryStr⟩,
   if writeOk then .stored (.obj [("token", tok), ("expiry", expiryStr)]) else fs)

/-- The `try` block of `get_cached_token` (server.py lines 70-84) that reloads
the durable store: every failure inside it (unreadable file, non-dict
document, missing or falsy fields, unparsable expiry) is caught and yields
`None`; an unexpired record is adopted into memory and returned. -/
def readCacheFile (mem : Mem) (fs : FileState) (now : Nat) : Json × Mem :=
  match fs with
  | .absent => (.null, mem)
  | .unreadable => (.null, mem)
  | .stored doc =>
    match doc with
    | .obj fields =>
      let tok := (jlookup fields "token").getD .null
      let expiryStr := (jlookup fields "expiry").getD .null
      if truthy tok ∧ truthy expiryStr then
        match pyFromIso expiryStr with
        | none => (.null, mem)
        | some e => if now < e then (tok, ⟨tok, expiryStr⟩) else (.null, mem)
      else (.null, mem)
    | _ => (.null, mem)

/-- `get_cached_token` (server.py lines 62-86).  The in-memory check runs
outside any `try`, so an unparsable in-memory expiry string raises
(`ValueError`); the file reload is the guarded `readCacheFile`. -/
def get_cached_token (mem : Mem) (fs : FileState) (now : Nat) :
    Except PyErr (Json × Mem) :=
  if truthy mem.cachedToken ∧ truthy mem.tokenExpiry then
    match pyFromIso mem.tokenExpiry with
    | none => .error .valueErr
    | some e =>
      if now < e then .ok (mem.cachedToken, mem)
      else .ok (readCacheFile mem fs now)
  else .ok (readCacheFile mem fs now)

/-- `login_to_hemis` (server.py lines 88-113).  `loginResp` is what
`make_post_request` produced for the login POST: `none` collapses network
errors, non-2xx statuses and JSON-decode failures.  The returned trace lists
the HTTP requests that were issued. -/
def login_to_hemis (env : Env) (mem : Mem) (fs : FileState) (now : Nat)
    (loginResp : Option Json) (writeOk : Bool) :
    Except PyErr (Json × Mem × FileState × List HttpCall) :=
  match get_cached_token mem fs now with
  | .error e => .error e
  | .ok (cached, mem₁) =>
    if truthy cached then .ok (cached, mem₁, fs, [])
    else if ¬ (truthyStr env.login ∧ truthyStr env.password) then
      .ok (.null, mem₁, fs, [])
    else
      match loginResp with
      | none => .ok (.null, mem₁, fs, [.post "auth/login"])
      | some resp =>
        if ¬ truthy resp then .ok (.null, mem₁, fs, [.post "auth/login"])
        else
          match pyGet resp "success" with
          | .error e => .error e
          | .ok succ =>
            if ¬ truthy succ then .ok (.null, mem₁, fs, [.post "auth/login"])
            else
              match pyIndex resp "data" with
              | .error e => .error e
              | .ok d =>
                match pyIndex d "token" with
                | .error e => .error e
                | .ok tok =>
                  let (mem₂, fs₂) := save_token tok now writeOk fs
                  .ok (tok, mem₂, fs₂, [.post "auth/login"])

/-- The in-memory slots are well formed: whenever both are truthy the expiry
parses.  Every state the program itself reaches satisfies this, because the
slots are only written by `save_token` and by `readCacheFile` after a
successful parse. -/
def wfMem (mem : Mem) : Prop :=
  truthy mem.cachedToken → truthy mem.tokenExpiry → (pyFromIso mem.tokenExpiry).isSome

/-- A login response whose shape the token extraction
`response["data"]["token"]` can handle without raising. -/
def respWellFormed : Option Json → Prop
  | none => True
  | some j =>
    truthy j →
      ∃ fields, j = .obj fields ∧
        (truthy ((jlookup fields "success").getD .null) →
          ∃ dfields tok, jlookup fields "data" = some (.obj dfields) ∧
            jlookup dfields "token" = some tok)

/-! ### Python comparison and sorting (list.sort with key functions) -/

/-- The numeric value of a JSON value for Python comparisons; Python `bool`
is a subtype of `int`. -/
def jnumVal : Json → Option Int
  | .num n => some n
  | .bool b => some (if b then 1 else 0)
  | _ => none

/-- Whether Python may compare these two values with `<` without raising:
two strings, or two numbers (including booleans). -/
def pyComparable (a b : Json) : Bool :=
  match a, b with
  | .str _, .str _ => true
  | x, y => (jnumVal x).isSome && (jnumVal y).isSome

def allComparable (l : List Json) : Bool :=
  l.all (fun a => l.all (fun b => pyComparable a b))

/-- Comparison rank used to extend the Python order to a total order on
`Json` (the extension is only consulted where `allComparable` already
holds, i.e. within a single rank). -/
def jrank : Json → Nat
  | .bool _ => 0
  | .num _ => 0
  | .str _ => 1
  | _ => 2

def jnum0 (j : Json) : Int := (jnumVal j).getD 0

def jstr0 : Json → String
  | .str s => s
  | _ => ""

/-- Total Boolean order on `Json` agreeing with Python `<=` on comparable
pairs (numbers by value with `True = 1`, `False = 0`; strings
lexicographically). -/
def jle (a b : Json) : Bool :=
  if jrank a ≠ jrank b then decide (jrank a < jrank b)
  else if jrank a = 1 then decide (jstr0 a ≤ jstr0 b)
  else decide (jnum0 a ≤ jnum0 b)

/-- Lexicographic order on key pairs, as Python compares tuples. -/
def jlePair (p q : Json × Json) : Bool :=
  if jle p.1 q.1 && jle q.1 p.1 then jle p.2 q.2 else jle p.1 q.1

/-- Python `==` on the values this server uses as dict keys and compares
with `!=`: `None`, booleans, numbers and strings (`True == 1` holds).
Container equality is not modelled (containers are unhashable as keys). -/
def pyEq (a b : Json) : Bool :=
  match a, b with
  | .null, .null => true
  | .str x, .str y => x == y
  | x, y =>
    match jnumVal x, jnumVal y with
    | some m, some n => m == n
    | _, _ => false

/-- Evaluate `f` over a list, short-circuiting on the first raise — the
semantics of a Python `for` loop or of applying a sort key per element. -/
def mapME {α β : Type} : List α → (α → Except PyErr β) → Except PyErr (List β)
  | [], _ => .ok []
  | x :: rest, f =>
    match f x with
    | .error e => .error e
    | .ok y =>
      match mapME rest f with
      | .error e => .error e
      | .ok ys => .ok (y :: ys)

/-- Python `list.sort(key=keyf, reverse=desc)`: the key is applied to every
element in list order (propagating a raise), then the list is sorted stably;
comparing incomparable keys raises `TypeError`.  CPython's `reverse=True`
keeps equal elements in their original order, which matches a stable sort
under the flipped comparison. -/
def keyedSortE (keyf : Json → Except PyErr Json) (desc : Bool) (l : List Json) :
    Except PyErr (List Json) :=
  match mapME l (fun x => (keyf x).map (fun k => (k, x))) with
  | .error e => .error e
  | .ok keyed =>
    if allComparable (keyed.map Prod.fst) then
      .ok ((List.mergeSort keyed
        (fun p q => if desc then jle q.1 p.1 else jle p.1 q.1)).map Prod.snd)
    else .error .typeErr

/-- Python `list.sort` with a two-component tuple key, ascending. -/
def keyedSortE2 (keyf₁ keyf₂ : Json → Except PyErr Json) (l : List Json) :
    Except PyErr (List Json) :=
  match mapME l (fun x => do
      let a ← keyf₁ x
      let b ← keyf₂ x
      pure ((a, b), x)) with
  | .error e => .error e
  | .ok keyed =>
    if allComparable (keyed.map (fun p => p.1.1))
        && allComparable (keyed.map (fun p => p.1.2)) then
      .ok ((List.mergeSort keyed (fun p q => jlePair p.1 q.1)).map Prod.snd)
    else .error .typeErr

/-! ### Protected tools: shared request plumbing -/

/-- The fixed message every protected tool returns when no token is
available. -/
def authFailMsg : String := "Unable to authenticate with HEMIS. Please check your credentials."

/-- The shared prefix of every protected tool: authenticate via
`login_to_hemis`, then perform one GET whose outcome is `fetchResp`
(`none` collapses network errors, non-2xx statuses and JSON-decode
failures), then check the payload's `success` flag; `body` renders the
`data` member.  `failMsg` is the tool-specific fetch-failure string. -/
def protectedTool (env : Env) (mem : Mem) (fs : FileState) (now : Nat)
    (loginResp : Option Json) (writeOk : Bool) (fetchResp : Option Json)
    (endpoint : String) (failMsg : String)
    (body : Json → Except PyErr String) :
    Except PyErr (String × Mem × FileState × List HttpCall) :=
  match login_to_hemis env mem fs now loginResp writeOk with
  | .error e => .error e
  | .ok (token, mem₁, fs₁, calls) =>
    if ¬ truthy token then .ok (authFailMsg, mem₁, fs₁, calls)
    else
      let calls := calls ++ [.get endpoint]
      match fetchResp with
      | none => .ok (failMsg, mem₁, fs₁, calls)
      | some data =>
        if ¬ truthy data then .ok (failMsg, mem₁, fs₁, calls)
        else
          match pyGet data "success" with
          | .error e => .error e
          | .ok succ =>
            if ¬ truthy succ then .ok (failMsg, mem₁, fs₁, calls)
            else
              match pyIndex data "data" with
              | .error e => .error e
              | .ok payload =>
                match body payload with
                | .error e => .error e
                | .ok text => .ok (text, mem₁, fs₁, calls)

/-! ### get_student_profile (server.py lines 117-178) -/

/-- The report body of `get_student_profile` (server.py lines 137-178).
`fmtDate` models `datetime.fromtimestamp(..).strftime("%Y-%m-%d")`; a truthy
non-numeric `birth_date` makes `fromtimestamp` raise `TypeError`. -/
def formatProfileLines (profile : Json) (fmtDate : Int → String) :
    Except PyErr (List String) := do
  let fn ← pyIndex profile "first_name"
  let sn ← pyIndex profile "second_name"
  let tn ← pyIndex profile "third_name"
  let sid ← pyIndex profile "student_id_number"
  let bd ← pyGet profile "birth_date"
  let birthLines ←
    if truthy bd then do
      let bd₂ ← pyIndex profile "birth_date"
      match jnumVal bd₂ with
      | some ts => pure ["- Birth Date: " ++ fmtDate ts]
      | none => throw .typeErr
    else pure []
  let gender ← pyIndex profile "gender"
  let genderName ← pyIndex gender "name"
  let pn ← pyIndex profile "passport_number"
  let pin ← pyIndex profile "passport_pin"
  let phone ← pyIndex profile "phone"
  let em ← pyGet profile "email"
  let emailLines ←
    if truthy em then do
      let em₂ ← pyIndex profile "email"
      if truthy em₂ then pure ["- Email: " ++ pyStr em₂] else pure []
    else pure []
  let country ← pyIndex profile "country"
  let countryName ← pyIndex country "name"
  let prov ← pyIndex profile "province"
  let provName ← pyIndex prov "name"
  let dist ← pyIndex profile "district"
  let distName ← pyIndex dist "name"
  let addr ← pyIndex profile "address"
  let accom ← pyIndex profile "accommodation"
  let accomName ← pyIndex accom "name"
  let univ ← pyIndex profile "university"
  let fac ← pyIndex profile "faculty"
  let facName ← pyIndex fac "name"
  let facCode ← pyIndex fac "code"
  let sp ← pyIndex profile "specialty"
  let spName ← pyIndex sp "name"
  let spCode ← pyIndex sp "code"
  let grp ← pyIndex profile "group"
  let grpName ← pyIndex grp "name"
  let ef ← pyIndex profile "educationForm"
  let efName ← pyIndex ef "name"
  let et ← pyIndex profile "educationType"
  let etName ← pyIndex et "name"
  let el ← pyIndex profile "educationLang"
  let elName ← pyIndex el "name"
  let pf ← pyIndex profile "paymentForm"
  let pfName ← pyIndex pf "name"
  let lvl ← pyIndex profile "level"
  let lvlName ← pyIndex lvl "name"
  let sem ← pyIndex profile "semester"
  let semName ← pyIndex sem "name"
  let ey ← pyIndex sem "education_year"
  let eyName ← pyIndex ey "name"
  let ss ← pyIndex profile "studentStatus"
  let ssName ← pyIndex ss "name"
  pure (["\n## Personal Information",
         "- Full Name: " ++ (pyStr fn ++ (" " ++ (pyStr sn ++ (" " ++ pyStr tn)))),
         "- Student ID: " ++ pyStr sid]
    ++ birthLines
    ++ ["- Gender: " ++ pyStr genderName,
        "- Passport Number: " ++ pyStr pn,
        "- Passport PIN: " ++ pyStr pin,
        "- Phone: " ++ pyStr phone]
    ++ emailLines
    ++ ["\n## Address Information",
        "- Country: " ++ pyStr countryName,
        "- Province: " ++ pyStr provName,
        "- District: " ++ pyStr distName,
        "- Address: " ++ pyStr addr,
        "- Accommodation: " ++ pyStr accomName,
        "\n## Academic Information",
        "- University: " ++ pyStr univ,
        "- Faculty: " ++ (pyStr facName ++ (" (" ++ (pyStr facCode ++ ")"))),
        "- Specialty: " ++ (pyStr spName ++ (" (" ++ (pyStr spCode ++ ")"))),
        "- Group: " ++ pyStr grpName,
        "- Education Form: " ++ pyStr efName,
        "- Education Type: " ++ pyStr etName,
        "- Education Language: " ++ pyStr elName,
        "- Payment Form: " ++ pyStr pfName,
        "- Course Level: " ++ pyStr lvlName,
        "- Current Semester: " ++ pyStr semName,
        "- Academic Year: " ++ pyStr eyName,
        "- Student Status: " ++ pyStr ssName])

/-- The `get_student_profile` tool (server.py lines 117-178). -/
def get_student_profile (env : Env) (mem : Mem) (fs : FileState) (now : Nat)
    (loginResp : Option Json) (writeOk : Bool) (fetchResp : Option Json)
    (fmtDate : Int → String) (language : String) :
    Except PyErr (String × Mem × FileState × List HttpCall) :=
  protectedTool env mem fs now loginResp writeOk fetchResp
    ("account/me?l=" ++ language)
    "Unable to fetch student profile information."
    (fun profile =>
      (formatProfileLines profile fmtDate).map (String.intercalate "\n"))

/-! ### get_student_gpa_list (server.py lines 180-236) -/

/-- The sort key `x["educationYear"]["code"]` (server.py line 207); a record
without it raises `KeyError`. -/
def gpaYearCode (x : Json) : Except PyErr Json := do
  let y ← pyIndex x "educationYear"
  pyIndex y "code"

/-- `gpa_list.sort(key=lambda x: x["educationYear"]["code"], reverse=True)`
(server.py line 207). -/
def gpaSorted (l : List Json) : Except PyErr (List Json) :=
  keyedSortE gpaYearCode true l

/-- One iteration of the GPA report loop (server.py lines 209-234). -/
def formatGpaRecord (x : Json) : Except PyErr (List String) := do
  let yearObj ← pyIndex x "educationYear"
  let year ← pyIndex yearObj "name"
  let levelObj ← pyIndex x "level"
  let level ← pyIndex levelObj "name"
  let gpa ← pyIndex x "gpa"
  let credit ← pyIndex x "credit_sum"
  let subjects ← pyIndex x "subjects"
  let debt ← pyIndex x "debt_subjects"
  let debtLines ←
    match jnumVal debt with
    | some n => pure (if n > 0 then ["- Debt Subjects: " ++ pyStr debt] else [])
    | none => throw .typeErr
  let ct ← pyGet x "can_transfer"
  let ctLine := if truthy ct then "- Eligible for transfer to next course: Yes"
                else "- Eligible for transfer to next course: No"
  let method ← pyGetD x "method" (.str "")
  let methodLines :=
    if pyEq method (.str "one_year") then ["- Calculation method: One year"]
    else if pyEq method (.str "all_year") then ["- Calculation method: All years"]
    else []
  pure (["\n## " ++ (pyStr year ++ (" (" ++ (pyStr level ++ ")"))),
         "- GPA: " ++ pyStr gpa,
         "- Total Credits: " ++ pyStr credit,
         "- Subjects: " ++ pyStr subjects]
    ++ debtLines ++ [ctLine] ++ methodLines)

/-- The `get_student_gpa_list` tool (server.py lines 180-236). -/
def get_student_gpa_list (env : Env) (mem : Mem) (fs : FileState) (now : Nat)
    (loginResp : Option Json) (writeOk : Bool) (fetchResp : Option Json)
    (language : String) :
    Except PyErr (String × Mem × FileState × List HttpCall) :=
  protectedTool env mem fs now loginResp writeOk fetchResp
    ("education/gpa-list?l=" ++ language)
    "Unable to fetch GPA information."
    (fun gl =>
      if ¬ truthy gl then
        .ok (String.intercalate "\n" ["# GPA History", "\nNo GPA records found."])
      else
        match gl with
        | .arr l => do
          let sorted ← gpaSorted l
          let recLines ← mapME sorted formatGpaRecord
          .ok (String.intercalate "\n" ("# GPA History" :: recLines.flatten))
        | _ => .error .typeErr)

/-! ### get_student_attendance (server.py lines 408-484) -/

/-- Checked division: Python raises `ZeroDivisionError` on a zero divisor. -/
def pyDiv (a b : ℚ) : Except PyErr ℚ :=
  if b = 0 then .error .zeroDiv else .ok (a / b)

/-- The date rendering of one attendance record (server.py lines 459-462):
a truthy `lesson_date` goes through `fromtimestamp`, a falsy one renders as
"Unknown Date". -/
def attendanceDateStr (r : Json) (fmtDate : Int → String) :
    Except PyErr String := do
  let ld ← pyGet r "lesson_date"
  if truthy ld then do
    let ld₂ ← pyIndex r "lesson_date"
    match jnumVal ld₂ with
    | some ts => pure (fmtDate ts)
    | none => throw .typeErr
  else pure "Unknown Date"

/-- One iteration of the attendance records loop (server.py lines 456-482). -/
def formatAttendanceRecord (r : Json) (fmtDate : Int → String) :
    Except PyErr (List String) := do
  let date ← attendanceDateStr r fmtDate
  let tt ← pyGetD r "trainingType" (.obj [])
  let ttn ← pyGetD tt "name" (.str "Unknown Type")
  let lp ← pyGetD r "lessonPair" (.obj [])
  let st ← pyGetD lp "start_time" (.str "")
  let et ← pyGetD lp "end_time" (.str "")
  let timeInfo := if truthy st && truthy et
                  then pyStr st ++ ("-" ++ pyStr et) else "Unknown time"
  let emp ← pyGetD r "employee" (.obj [])
  let empName ← pyGetD emp "name" (.str "Unknown Instructor")
  let aOn ← pyGet r "absent_on"
  let aOff ← pyGet r "absent_off"
  let ex ← pyGet r "explicable"
  let status := if truthy aOn || truthy aOff
                then (if truthy ex then "Excused Absence" else "Unexcused Absence")
                else "Present"
  pure ["- **" ++ (date ++ ("** (" ++ (pyStr ttn ++ (", " ++ (timeInfo ++ ")"))))),
        "  - Instructor: " ++ pyStr empName,
        "  - Status: " ++ status]

/-- The `get_student_attendance` tool (server.py lines 408-484).  `fmtRate`
models the `"{:.1f}"` rendering of the attendance-rate float. -/
def get_student_attendance (env : Env) (mem : Mem) (fs : FileState) (now : Nat)
    (loginResp : Option Json) (writeOk : Bool) (fetchResp : Option Json)
    (fmtDate : Int → String) (fmtRate : ℚ → String)
    (subject semester language : String) :
    Except PyErr (String × Mem × FileState × List HttpCall) :=
  protectedTool env mem fs now loginResp writeOk fetchResp
    ("education/attendance?l=" ++ (language ++ ("&subject=" ++ (subject ++ ("&semester=" ++ semester)))))
    "Unable to fetch attendance information for the specified subject and semester."
    (fun records =>
      if ¬ truthy records then
        .ok "No attendance records found for this subject in the specified semester."
      else
        match records with
        | .arr l =>
          match l with
          | [] => .error .keyErr
          | first :: _ => do
            let subjInfo ← pyGetD first "subject" (.obj [])
            let sname ← pyGetD subjInfo "name" (.str "Unknown Subject")
            let scode ← pyGetD subjInfo "code" (.str "")
            let total : Nat := l.length
            let absents ← mapME l (fun r => do
              let aOn ← pyGet r "absent_on"
              let aOff ← pyGet r "absent_off"
              pure (truthy aOn || truthy aOff))
            let absentCount : Nat := absents.count true
            let expl ← mapME l (fun r => do
              let aOn ← pyGet r "absent_on"
              let aOff ← pyGet r "absent_off"
              let ex ← pyGet r "explicable"
              pure ((truthy aOn || truthy aOff) && truthy ex))
            let explCount : Nat := expl.count true
            let rate ← pyDiv (((total : Int) - (absentCount : Int) : Int) : ℚ) (total : ℚ)
            let sorted ← keyedSortE (fun r => pyGetD r "lesson_date" (.num 0)) false l
            let recLines ← mapME sorted (fun r => formatAttendanceRecord r fmtDate)
            .ok (String.intercalate "\n"
              (("# Attendance for " ++ (pyStr sname ++ (" (" ++ (pyStr scode ++ ")"))))
                :: ("\n**Total Lessons:** " ++ toString total)
                :: ("**Absences:** " ++ toString absentCount)
                :: ("**Excused Absences:** " ++ toString explCount)
                :: ("**Attendance Rate:** " ++ (fmtRate (rate * 100) ++ "%"))
                :: "\n## Attendance Records"
                :: recLines.flatten))
        | _ => .error .typeErr)

/-! ### get_all_student_documents (server.py lines 908-988) -/

/-- Append a document to its group in the insertion-ordered dict
`document_types` (server.py lines 941-946). -/
def addToGroups (acc : List (Json × List Json)) (k : Json) (d : Json) :
    List (Json × List Json) :=
  match acc with
  | [] => [(k, [d])]
  | (k₂, ds) :: rest =>
    if pyEq k₂ k then (k₂, ds ++ [d]) :: rest
    else (k₂, ds) :: addToGroups rest k d

/-- The grouping loop (server.py lines 941-946): each document is filed
under `document.get("type", "unknown")`. -/
def groupDocs (docs : List Json) (acc : List (Json × List Json)) :
    Except PyErr (List (Json × List Json)) :=
  match docs with
  | [] => .ok acc
  | d :: rest =>
    match pyGetD d "type" (.str "unknown") with
    | .error e => .error e
    | .ok k => groupDocs rest (addToGroups acc k d)

def lookupGroup : List (Json × List Json) → Json → Option (List Json)
  | [], _ => none
  | (k, ds) :: rest, key => if pyEq k key then some ds else lookupGroup rest key

/-- The grouped-and-sorted document structure the report iterates
(server.py lines 941-963): groups ordered by `sorted(document_types.keys())`
and, within each group, documents ordered by
`docs.sort(key=lambda x: x.get("id", 0), reverse=True)`. -/
def documentGroups (docs : List Json) : Except PyErr (List (Json × List Json)) :=
  match groupDocs docs [] with
  | .error e => .error e
  | .ok groups =>
    if allComparable (groups.map Prod.fst) then
      mapME (List.mergeSort (groups.map Prod.fst) jle) (fun k => do
        let sorted ← keyedSortE (fun d => pyGetD d "id" (.num 0)) true
          ((lookupGroup groups k).getD [])
        pure (k, sorted))
    else .error .typeErr

/-- String-keyed association lookup (Python `dict.get` on a string dict). -/
def jstrLookup {β : Type} : List (String × β) → String → Option β
  | [], _ => none
  | (k, v) :: rest, key => if k = key then some v else jstrLookup rest key

/-- The `type_labels` table (server.py lines 948-956). -/
def typeLabels : List (String × String) :=
  [("diploma", "Diplomas"), ("supplement", "Diploma Supplements"),
   ("academic_sheet", "Academic Sheets"), ("academic_data", "Grade Books"),
   ("reference", "Student References"), ("decree", "Academic Orders/Decrees"),
   ("unknown", "Other Documents")]

/-- One document's lines in the report (server.py lines 965-986). -/
def formatDocumentLines (d : Json) : Except PyErr (List String) := do
  let nm ← pyGetD d "name" (.str "Unnamed Document")
  let _docId ← pyGetD d "id" (.str "")
  let fileUrl ← pyGetD d "file" (.str "")
  let linkUrl ← pyGetD d "link" (.str "")
  let attrs ← pyGetD d "attributes" (.arr [])
  let attrLines ←
    if truthy attrs then
      match attrs with
      | .arr l => do
        let per ← mapME l (fun a => do
          let label ← pyGetD a "label" (.str "")
          let value ← pyGetD a "value" (.str "")
          pure (if truthy label && truthy value
                then ["- **" ++ (pyStr label ++ (":** " ++ pyStr value))] else []))
        pure ("\n#### Document Details" :: per.flatten)
      | _ => .error .typeErr
    else pure []
  let fileLines := if truthy fileUrl
    then ["\n[Download Document](" ++ (pyStr fileUrl ++ ")")] else []
  let linkLines := if truthy linkUrl && !(pyEq linkUrl fileUrl)
    then ["\n[View Online](" ++ (pyStr linkUrl ++ ")")] else []
  pure (("\n### " ++ pyStr nm) :: attrLines ++ fileLines ++ linkLines)

/-- One group's lines: its `type_labels` header (a non-string group key
raises at `doc_type.title()`, modelled with the `fmtTitle` parameter for
`str.title`), then each document. -/
def formatDocGroup (k : Json) (ds : List Json) (fmtTitle : String → String) :
    Except PyErr (List String) := do
  let label ←
    match k with
    | .str s => pure ((jstrLookup typeLabels s).getD (fmtTitle s))
    | _ => throw .typeErr
  let per ← mapME ds formatDocumentLines
  pure (("\n## " ++ label) :: per.flatten)

/-- The `get_all_student_documents` tool (server.py lines 908-988). -/
def get_all_student_documents (env : Env) (mem : Mem) (fs : FileState) (now : Nat)
    (loginResp : Option Json) (writeOk : Bool) (fetchResp : Option Json)
    (fmtTitle : String → String) (language : String) :
    Except PyErr (String × Mem × FileState × List HttpCall) :=
  protectedTool env mem fs now loginResp writeOk fetchResp
    ("student/document-all?l=" ++ language)
    "Unable to fetch student documents information."
    (fun docs =>
      if ¬ truthy docs then .ok "No documents found in your student record."
      else
        match docs with
        | .arr l => do
          let groups ← documentGroups l
          let per ← mapME groups (fun p => formatDocGroup p.1 p.2 fmtTitle)
          .ok (String.intercalate "\n" ("# All Student Documents" :: per.flatten))
        | _ => .error .typeErr)

/-! ### get_student_schedule (server.py lines 1194-1283) -/

/-- The first component of the schedule sort key:
`x.get("lesson_date", 0)` (server.py line 1231). -/
def scheduleDateKey (x : Json) : Except PyErr Json :=
  pyGetD x "lesson_date" (.num 0)

/-- The second component: `x.get("lessonPair", \x7b\x7d).get("code", "")`. -/
def schedulePairKey (x : Json) : Except PyErr Json := do
  let lp ← pyGetD x "lessonPair" (.obj [])
  pyGetD lp "code" (.str "")

/-- `schedule.sort(key=lambda x: (x.get("lesson_date", 0),
x.get("lessonPair", \x7b\x7d).get("code", "")))` (server.py line 1231). -/
def scheduleSorted (l : List Json) : Except PyErr (List Json) :=
  keyedSortE2 scheduleDateKey schedulePairKey l

/-- Append a lesson to its day in the insertion-ordered
`schedule_by_day` dict. -/
def addToDayGroups (acc : List (String × List Json)) (day : String) (x : Json) :
    List (String × List Json) :=
  match acc with
  | [] => [(day, [x])]
  | (d, xs) :: rest =>
    if d = day then (d, xs ++ [x]) :: rest
    else (d, xs) :: addToDayGroups rest day x

/-- The day-grouping loop (server.py lines 1236-1239): lessons with a falsy
`lesson_date` are dropped; a truthy non-numeric one makes `fromtimestamp`
raise. -/
def buildDayGroups (l : List Json) (fmtDate : Int → String)
    (acc : List (String × List Json)) :
    Except PyErr (List (String × List Json)) :=
  match l with
  | [] => .ok acc
  | lesson :: rest =>
    match pyGet lesson "lesson_date" with
    | .error e => .error e
    | .ok ld =>
      if truthy ld then
        match pyIndex lesson "lesson_date" with
        | .error e => .error e
        | .ok ld₂ =>
          match jnumVal ld₂ with
          | some ts => buildDayGroups rest fmtDate (addToDayGroups acc (fmtDate ts) lesson)
          | none => .error .typeErr
      else buildDayGroups rest fmtDate acc

/-- One lesson's lines in the schedule report (server.py lines 1252-1278). -/
def formatScheduleLesson (lesson : Json) : Except PyErr (List String) := do
  let subj ← pyGetD lesson "subject" (.obj [])
  let sname ← pyGetD subj "name" (.str "Unknown Subject")
  let scode ← pyGetD subj "code" (.str "")
  let lp ← pyGetD lesson "lessonPair" (.obj [])
  let st ← pyGetD lp "start_time" (.str "")
  let et ← pyGetD lp "end_time" (.str "")
  let timeInfo := if truthy st && truthy et
                  then pyStr st ++ ("-" ++ pyStr et) else "Time not specified"
  let tt ← pyGetD lesson "trainingType" (.obj [])
  let ttn ← pyGetD tt "name" (.str "Unknown Type")
  let emp ← pyGetD lesson "employee" (.obj [])
  let empName ← pyGetD emp "name" (.str "Not specified")
  let aud ← pyGetD lesson "auditorium" (.obj [])
  let room ← pyGetD aud "name" (.str "Not specified")
  let bld ← pyGetD aud "building" (.obj [])
  let bname ← pyGetD bld "name" (.str "")
  let location := if truthy bname
                  then pyStr room ++ (", " ++ pyStr bname) else pyStr room
  let grp ← pyGetD lesson "group" (.obj [])
  let gname ← pyGetD grp "name" (.str "")
  let grpLines := if truthy gname then ["- **Group:** " ++ pyStr gname] else []
  pure (("\n### " ++ (timeInfo ++ (" - " ++ (pyStr sname ++ (" (" ++ (pyStr scode ++ ")"))))))
    :: ("- **Type:** " ++ pyStr ttn)
    :: ("- **Instructor:** " ++ pyStr empName)
    :: ("- **Location:** " ++ location)
    :: grpLines)

/-- The `get_student_schedule` tool (server.py lines 1194-1283).  `fmtDate`
models `fromtimestamp(..).strftime("%Y-%m-%d")` and `fmtDay` the
`strptime(day).strftime("%A")` weekday rendering. -/
def get_student_schedule (env : Env) (mem : Mem) (fs : FileState) (now : Nat)
    (loginResp : Option Json) (writeOk : Bool) (fetchResp : Option Json)
    (fmtDate : Int → String) (fmtDay : String → String)
    (semester : String) (week : Option String) (language : String) :
    Except PyErr (String × Mem × FileState × List HttpCall) :=
  protectedTool env mem fs now loginResp writeOk fetchResp
    ("education/schedule?l=" ++ (language ++ ("&semester=" ++ (semester ++
      (match week with
       | some w => if w != "" then "&week=" ++ w else ""
       | none => "")))))
    "Unable to fetch schedule for the specified semester and week."
    (fun schedule =>
      if ¬ truthy schedule then .ok "No schedule found for the specified semester and week."
      else
        match schedule with
        | .arr l => do
          let sorted ← scheduleSorted l
          let byDay ← buildDayGroups sorted fmtDate []
          let weekLines ←
            match sorted with
            | [] => pure []
            | s₀ :: _ => do
              let ws ← pyGet s₀ "weekStartTime"
              if truthy ws then do
                let we ← pyGet s₀ "weekEndTime"
                if truthy we then do
                  let ws₂ ← pyIndex s₀ "weekStartTime"
                  let we₂ ← pyIndex s₀ "weekEndTime"
                  match jnumVal ws₂, jnumVal we₂ with
                  | some a, some b =>
                    pure ["\nWeek: **" ++ (fmtDate a ++ ("** to **" ++ (fmtDate b ++ "**")))]
                  | _, _ => throw .typeErr
                else pure []
              else pure []
          let dayLines ← mapME byDay (fun p => do
            let per ← mapME p.2 formatScheduleLesson
            pure (("\n## " ++ (fmtDay p.1 ++ (" (" ++ (p.1 ++ ")")))) :: per.flatten))
          let tailLines := if byDay.isEmpty
            then ["\nNo scheduled classes found for this period."] else []
          .ok (String.intercalate "\n"
            ((("# Class Schedule for Semester " ++ semester) :: weekLines)
              ++ dayLines.flatten ++ tailLines))
        | _ => .error .typeErr)

/-! ### get_student_task_list per-task formatting (server.py lines 1445-1506) -/

/-- Python `x is None`. -/
def isNull : Json → Bool
  | .null => true
  | _ => false

/-- One iteration of the task-list report loop (server.py lines 1445-1506).
`fmtDT` models `fromtimestamp(..).strftime("%Y-%m-%d %H:%M")`; `fmtMB` and
`fmtKB` model the `"{:.2f} MB"` / `"{:.2f} KB"` float renderings of a file
size. -/
def formatTaskLines (task : Json) (fmtDT : Int → String)
    (fmtMB fmtKB : Int → String) : Except PyErr (List String) := do
  let nm ← pyGetD task "name" (.str "Unnamed Task")
  let cm ← pyGet task "comment"
  let commentLines ←
    if truthy cm then do
      let c ← pyIndex task "comment"
      pure ["\n" ++ pyStr c]
    else pure []
  let tt ← pyGetD task "trainingType" (.obj [])
  let ttn ← pyGetD tt "name" (.str "")
  let ttLines := if truthy ttn then ["\n- **Training Type:** " ++ pyStr ttn] else []
  let tk ← pyGetD task "taskType" (.obj [])
  let tkn ← pyGetD tk "name" (.str "")
  let tkLines := if truthy tkn then ["- **Task Type:** " ++ pyStr tkn] else []
  let mb ← pyGet task "max_ball"
  let mbLines := if isNull mb then [] else ["- **Maximum Score:** " ++ pyStr mb]
  let dl ← pyGet task "deadline"
  let dlLines ←
    if truthy dl then
      match jnumVal dl with
      | some ts => pure ["- **Deadline:** " ++ fmtDT ts]
      | none => throw .typeErr
    else pure []
  let al ← pyGet task "attempt_limit"
  let alLines := if truthy al then ["- **Attempt Limit:** " ++ pyStr al] else []
  let st ← pyGetD task "taskStatus" (.obj [])
  let stn ← pyGetD st "name" (.str "")
  let stLines := if truthy stn then ["- **Status:** " ++ pyStr stn] else []
  let em ← pyGetD task "employee" (.obj [])
  let emn ← pyGetD em "name" (.str "")
  let emLines := if truthy emn then ["- **Instructor:** " ++ pyStr emn] else []
  let ua ← pyGet task "updated_at"
  let uaLines ←
    if truthy ua then do
      let u ← pyIndex task "updated_at"
      match jnumVal u with
      | some ts => pure ["- **Last Updated:** " ++ fmtDT ts]
      | none => throw .typeErr
    else pure []
  let fl ← pyGetD task "files" (.arr [])
  let fileLines ←
    if truthy fl then
      match fl with
      | .arr files => do
        let per ← mapME files (fun f => do
          let fname ← pyGetD f "name" (.str "Unnamed file")
          let fsize ← pyGetD f "size" (.num 0)
          let furl ← pyGetD f "url" (.str "")
          let sizeDisplay ←
            match jnumVal fsize with
            | some n =>
              pure (if n > 1024 * 1024 then fmtMB n
                    else if n > 1024 then fmtKB n
                    else pyStr fsize ++ " bytes")
            | none => throw .typeErr
          pure (if truthy furl
                then "- [" ++ (pyStr fname ++ ("](" ++ (pyStr furl ++ (") (" ++ (sizeDisplay ++ ")")))))
                else "- " ++ (pyStr fname ++ (" (" ++ (sizeDisplay ++ ")")))))
        pure ("\n### Attached Files" :: per)
      | _ => .error .typeErr
    else pure []
  pure (("\n## " ++ pyStr nm)
    :: commentLines ++ ttLines ++ tkLines ++ mbLines ++ dlLines ++ alLines
    ++ stLines ++ emLines ++ uaLines ++ fileLines)

/-! ### Tool-calling orchestrator (src/client_openai.py lines 52-131) -/

/-- One tool invocation requested by the LLM. -/
structure ToolCall where
  id : String
  name : String
  arguments : String

/-- The LLM's first completion: optional text plus requested invocations
(`tool_calls` is empty when the completion requested none). -/
structure AssistantMsg where
  content : Option String
  tool_calls : List ToolCall

/-- A message of the conversation transcript built by `process_query`. -/
inductive ChatMsg where
  | user (content : String)
  | assistant (content : Option String) (tool_calls : List ToolCall)
  | toolResult (tool_call_id : String) (content : String)

/-- The tool-call loop of `process_query` (client_openai.py lines 106-120):
for each requested invocation in order, decode its JSON arguments
(`json.loads` raises on failure), invoke the MCP tool, and record the
tool-result message with the invocation's correlation id.  Returns the
appended tool-result messages, the narration lines, and the trace of
invocations actually performed, in order. -/
def runToolCalls (callTool : String → Json → Except PyErr String)
    (jsonParse : String → Option Json) :
    List ToolCall → Except PyErr (List ChatMsg × List String × List (String × Json))
  | [] => .ok ([], [], [])
  | tc :: rest =>
    match jsonParse tc.arguments with
    | none => .error .valueErr
    | some args =>
      match callTool tc.name args with
      | .error e => .error e
      | .ok res =>
        match runToolCalls callTool jsonParse rest with
        | .error e => .error e
        | .ok (ms, texts, trace) =>
          .ok (.toolResult tc.id res :: ms,
               ("[Calling tool " ++ (tc.name ++ (" with args " ++ (pyStr args ++ "]")))) :: texts,
               (tc.name, args) :: trace)

/-- `MCPClient.process_query` (client_openai.py lines 52-131).  `firstResp`
is the LLM's first completion; `callTool` is `session.call_tool` (an
`.error` models a raised exception); `jsonParse` is `json.loads`;
`finalContent` is the text of the second completion requested when tools
were used.  Returns the final transcript, the joined `final_text`, and the
trace of tool invocations performed. -/
def process_query (query : String) (firstResp : AssistantMsg)
    (callTool : String → Json → Except PyErr String)
    (jsonParse : String → Option Json) (finalContent : String) :
    Except PyErr (List ChatMsg × String × List (String × Json)) :=
  let messages : List ChatMsg := [.user query]
  let firstText := firstResp.content.getD ""
  if firstResp.tool_calls.isEmpty then .ok (messages, firstText, [])
  else
    let messages := messages ++ [.assistant firstResp.content firstResp.tool_calls]
    match runToolCalls callTool jsonParse firstResp.tool_calls with
    | .error e => .error e
    | .ok (toolMsgs, callTexts, trace) =>
      .ok (messages ++ toolMsgs,
           String.intercalate "\n" (firstText :: callTexts ++ [finalContent]),
           trace)

/-- The academic-year code of a GPA record, read off the report's sort key
(used to state the ordering property; empty for records without one). -/
def gpaCodeStr (x : Json) : String :=
  match gpaYearCode x with
  | .ok (.str s) => s
  | _ => ""

/-- The lesson date of a schedule entry, read off the report's sort key. -/
def scheduleDateVal (x : Json) : Int :=
  match scheduleDateKey x with
  | .ok (.num n) => n
  | _ => 0

/-- The lesson-period code of a schedule entry, read off the report's sort
key. -/
def schedulePairStr (x : Json) : String :=
  match schedulePairKey x with
  | .ok (.str s) => s
  | _ => ""

/-- The id of a document, read off the report's sort key (0 for documents
without one, the sort key's default). -/
def docIdVal (d : Json) : Int :=
  match pyGetD d "id" (.num 0) with
  | .ok (.num n) => n
  | _ => 0

/-- All documents filed in a group structure. -/
def groupMembers (gs : List (Json × List Json)) : List Json :=
  (gs.map Prod.snd).flatten

/-- The required fields of a profile payload; a member of this family is a
successfully fetched profile that is missing the optional fields
`birth_date` and `email`. -/
structure ProfileData where
  first_name : String
  second_name : String
  third_name : String
  student_id_number : String
  gender : String
  passport_number : String
  passport_pin : String
  phone : String
  country : String
  province : String
  district : String
  address : String
  accommodation : String
  university : String
  faculty_name : String
  faculty_code : String
  specialty_name : String
  specialty_code : String
  group_name : String
  educationForm : String
  educationType : String
  educationLang : String
  paymentForm : String
  level : String
  semester : String
  academic_year : String
  studentStatus : String

/-- A profile payload holding exactly the required fields. -/
def mkProfile (p : ProfileData) : Json :=
  .obj [("first_name", .str p.first_name), ("second_name", .str p.second_name),
        ("third_name", .str p.third_name),
        ("student_id_number", .str p.student_id_number),
        ("gender", .obj [("name", .str p.gender)]),
        ("passport_number", .str p.passport_number),
        ("passport_pin", .str p.passport_pin),
        ("phone", .str p.phone),
        ("country", .obj [("name", .str p.country)]),
        ("province", .obj [("name", .str p.province)]),
        ("district", .obj [("name", .str p.district)]),
        ("address", .str p.address),
        ("accommodation", .obj [("name", .str p.accommodation)]),
        ("university", .str p.university),
        ("faculty", .obj [("name", .str p.faculty_name), ("code", .str p.faculty_code)]),
        ("specialty", .obj [("name", .str p.specialty_name), ("code", .str p.specialty_code)]),
        ("group", .obj [("name", .str p.group_name)]),
        ("educationForm", .obj [("name", .str p.educationForm)]),
        ("educationType", .obj [("name", .str p.educationType)]),
        ("educationLang", .obj [("name", .str p.educationLang)]),
        ("paymentForm", .obj [("name", .str p.paymentForm)]),
        ("level", .obj [("name", .str p.level)]),
        ("semester", .obj [("name", .str p.semester),
          ("education_year", .obj [("name", .str p.academic_year)])]),
        ("studentStatus", .obj [("name", .str p.studentStatus)])]

/-- A task payload missing the optional `attempt_limit` (and the other
optional fields except `max_ball`). -/
structure TaskData where
  name : String
  max_ball : Int

def mkTask (t : TaskData) : Json :=
  .obj [("name", .str t.name), ("max_ball", .num t.max_ball)]

/-- The report line `l` starts with the marker `p`. -/
def linePref (p l : String) : Prop := p.data <+: l.data

instance (p l : String) : Decidable (linePref p l) :=
  inferInstanceAs (Decidable (p.data <+: l.data))

/-! ### Lemmas: the decimal timestamp encoding round-trips -/

theorem toDigitsRev_lt_ten {fuel n : Nat} : ∀ d ∈ toDigitsRev fuel n, d < 10 := by
  induction fuel generalizing n with
  | zero => intro d hd; simp [toDigitsRev] at hd
  | succ fuel ih =>
    intro d hd
    by_cases h : n = 0
    · simp [toDigitsRev, h] at hd
    · simp only [toDigitsRev, if_neg h, List.mem_cons] at hd
      rcases hd with h1 | h2
      · subst h1; exact Nat.mod_lt _ (by omega)
      · exact ih d h2

theorem ofDigitsRev_toDigitsRev {fuel n : Nat} (h : n ≤ fuel) :
    ofDigitsRev (toDigitsRev fuel n) = n := by
  induction fuel generalizing n with
  | zero => interval_cases n; simp [toDigitsRev, ofDigitsRev]
  | succ fuel ih =>
    by_cases h0 : n = 0
    · simp [toDigitsRev, h0, ofDigitsRev]
    · have hdiv : n / 10 ≤ fuel := by
        have := Nat.div_lt_self (Nat.pos_of_ne_zero h0) (by norm_num : (1:Nat) < 10)
        omega
      simp only [toDigitsRev, if_neg h0, ofDigitsRev, ih hdiv]
      omega

theorem toDigitsRev_ne_nil {fuel n : Nat} (hn : n ≠ 0) (hf : fuel ≠ 0) :
    toDigitsRev fuel n ≠ [] := by
  cases fuel with
  | zero => exact absurd rfl hf
  | succ fuel => simp [toDigitsRev, hn]

theorem digitChar_toNat {d : Nat} (h : d < 10) : (digitChar d).toNat = 48 + d := by
  interval_cases d <;> decide

theorem isDigitChar_digitChar {d : Nat} (h : d < 10) : isDigitChar (digitChar d) = true := by
  interval_cases d <;> decide

/-- Parsing a rendered non-zero timestamp recovers it. -/
theorem isoParse_isoFormat {t : Nat} (ht : t ≠ 0) : isoParse (isoFormat t) = some t := by
  have hne : toDigitsRev t t ≠ [] := toDigitsRev_ne_nil ht ht
  have hlt := @toDigitsRev_lt_ten t t
  have hall : ((toDigitsRev t t).reverse.map digitChar).all isDigitChar = true := by
    rw [List.all_eq_true]
    intro c hc
    rw [List.mem_map] at hc
    obtain ⟨d, hd, rfl⟩ := hc
    exact isDigitChar_digitChar (hlt d (List.mem_reverse.mp hd))
  have hmap : ((toDigitsRev t t).reverse.map digitChar).map (fun c => c.toNat - 48)
      = (toDigitsRev t t).reverse := by
    rw [List.map_map]
    refine List.map_congr_left ?_ |>.trans (List.map_id _)
    intro d hd
    have hd10 := hlt d (List.mem_reverse.mp hd)
    simp [Function.comp, digitChar_toNat hd10]
  unfold isoParse isoFormat
  simp only [hmap, List.reverse_reverse]
  rw [if_pos]
  · rw [ofDigitsRev_toDigitsRev (Nat.le_refl t)]
  · refine ⟨?_, hall⟩
    simpa using hne

/-- A rendered non-zero timestamp is a non-empty (hence truthy) string. -/
theorem isoFormat_ne_empty {t : Nat} (ht : t ≠ 0) : isoFormat t ≠ "" := by
  unfold isoFormat
  intro h
  have : ((toDigitsRev t t).reverse.map digitChar) = [] := congrArg String.data h
  simp only [List.map_eq_nil_iff, List.reverse_eq_nil_iff] at this
  exact toDigitsRev_ne_nil ht ht this

/-! ### Theorems about the token cache (claims C1, C2, C5) -/

/-- `get_cached_token` never raises on a well-formed memory state. -/
theorem get_cached_token_total (mem : Mem) (fs : FileState) (now : Nat)
    (hwf : wfMem mem) : ∃ r, get_cached_token mem fs now = .ok r := by
  unfold get_cached_token
  by_cases h : truthy mem.cachedToken ∧ truthy mem.tokenExpiry
  · rcases Option.isSome_iff_exists.mp (hwf h.1 h.2) with ⟨e, he⟩
    by_cases hlt : now < e
    · exact ⟨_, by rw [if_pos h, he]; dsimp only; rw [if_pos hlt]⟩
    · exact ⟨_, by rw [if_pos h, he]; dsimp only; rw [if_neg hlt]⟩
  · exact ⟨_, by rw [if_neg h]⟩

/-- `login_to_hemis` never raises given a well-formed memory state and a
well-formed login response. -/
theorem login_total (env : Env) (mem : Mem) (fs : FileState) (now : Nat)
    (loginResp : Option Json) (writeOk : Bool)
    (hwf : wfMem mem) (hresp : respWellFormed loginResp) :
    ∃ r, login_to_hemis env mem fs now loginResp writeOk = .ok r := by
  obtain ⟨⟨cached, mem₁⟩, hc⟩ := get_cached_token_total mem fs now hwf
  unfold login_to_hemis
  rw [hc]
  dsimp only
  by_cases h1 : truthy cached
  · exact ⟨_, by rw [if_pos h1]⟩
  rw [if_neg h1]
  by_cases h2 : truthyStr env.login ∧ truthyStr env.password
  · rw [if_neg (by simpa using h2)]
    match loginResp, hresp with
    | none, _ => exact ⟨_, rfl⟩
    | some j, hresp =>
      dsimp only
      by_cases hj : truthy j
      · obtain ⟨fields, rfl, hsucc⟩ := hresp hj
        rw [if_neg (by simpa using hj)]
        simp only [pyGet]
        by_cases hs : truthy ((jlookup fields "success").getD .null)
        · obtain ⟨dfields, tok, hdata, htok⟩ := hsucc hs
          rw [if_neg (by simpa using hs)]
          simp only [pyIndex, hdata, htok]
          exact ⟨_, rfl⟩
        · exact ⟨_, by rw [if_pos (by simpa using hs)]⟩
      · exact ⟨_, by rw [if_pos (by simpa using hj)]⟩
  · exact ⟨_, by rw [if_pos (by simpa using h2)]⟩

/-- Any truthy token produced by the file-reload path comes from a stored
record whose expiry parses and lies strictly in the future, and memory adopts
exactly that record. -/
theorem readCacheFile_spec (mem : Mem) (fs : FileState) (now : Nat)
    (t : Json) (m₂ : Mem) (heq : readCacheFile mem fs now = (t, m₂))
    (ht : truthy t) :
    ∃ fields e, fs = .stored (.obj fields) ∧
      (jlookup fields "token").getD .null = t ∧
      pyFromIso ((jlookup fields "expiry").getD .null) = some e ∧ now < e ∧
      m₂ = ⟨t, (jlookup fields "expiry").getD .null⟩ := by
  match fs with
  | .absent =>
    simp only [readCacheFile] at heq
    obtain ⟨rfl, rfl⟩ := Prod.mk.injEq .. ▸ heq
    simp [truthy] at ht
  | .unreadable =>
    simp only [readCacheFile] at heq
    obtain ⟨rfl, rfl⟩ := Prod.mk.injEq .. ▸ heq
    simp [truthy] at ht
  | .stored doc =>
    match doc with
    | .null | .bool _ | .num _ | .str _ | .arr _ =>
      simp only [readCacheFile] at heq
      obtain ⟨rfl, rfl⟩ := Prod.mk.injEq .. ▸ heq
      simp [truthy] at ht
    | .obj fields =>
      simp only [readCacheFile] at heq
      by_cases hb : truthy ((jlookup fields "token").getD .null)
          ∧ truthy ((jlookup fields "expiry").getD .null)
      · rw [if_pos hb] at heq
        match hp : pyFromIso ((jlookup fields "expiry").getD .null) with
        | none =>
          rw [hp] at heq
          obtain ⟨rfl, rfl⟩ := Prod.mk.injEq .. ▸ heq
          simp [truthy] at ht
        | some e =>
          rw [hp] at heq
          dsimp only at heq
          by_cases hlt : now < e
          · rw [if_pos hlt] at heq
            obtain ⟨rfl, rfl⟩ := Prod.mk.injEq .. ▸ heq
            exact ⟨fields, e, rfl, rfl, hp, hlt, rfl⟩
          · rw [if_neg hlt] at heq
            obtain ⟨rfl, rfl⟩ := Prod.mk.injEq .. ▸ heq
            simp [truthy] at ht
      · rw [if_neg hb] at heq
        obtain ⟨rfl, rfl⟩ := Prod.mk.injEq .. ▸ heq
        simp [truthy] at ht

/-- C1 — for every cache state (with parseable in-memory expiry and a login
response the extraction can handle): (i) the in-memory token with expiry E is
returned by the cache exactly when now < E; (ii) any truthy token the cache
returns is backed, in memory or in the durable store, by an expiry strictly
in the future — an expired token is never returned; (iii) when the cache
yields no token, `login_to_hemis` returns either no token (`null`) or a fresh
token whose recorded expiry is now + 7 days. -/
theorem c1_token_validity (env : Env) (mem : Mem) (fs : FileState) (now : Nat)
    (loginResp : Option Json) (writeOk : Bool)
    (hwf : wfMem mem) (hresp : respWellFormed loginResp) :
    (∀ e, truthy mem.cachedToken → truthy mem.tokenExpiry →
      pyFromIso mem.tokenExpiry = some e →
      (now < e ↔ get_cached_token mem fs now = .ok (mem.cachedToken, mem))) ∧
    (∀ t m₂, get_cached_token mem fs now = .ok (t, m₂) → truthy t →
      (∃ e, pyFromIso mem.tokenExpiry = some e ∧ t = mem.cachedToken ∧ now < e) ∨
      (∃ fields e, fs = .stored (.obj fields) ∧
        (jlookup fields "token").getD .null = t ∧
        pyFromIso ((jlookup fields "expiry").getD .null) = some e ∧ now < e)) ∧
    (∀ mem₁, get_cached_token mem fs now = .ok (.null, mem₁) →
      ∃ t mem₂ fs₂ calls,
        login_to_hemis env mem fs now loginResp writeOk = .ok (t, mem₂, fs₂, calls) ∧
        (t = .null ∨ mem₂ = ⟨t, .str (isoFormat (now + sevenDays))⟩)) := by
  obtain ⟨ct, te⟩ := mem
  refine ⟨?_, ?_, ?_⟩
  · intro e hct hte hp
    unfold get_cached_token
    simp only at hct hte hp ⊢
    rw [if_pos ⟨hct, hte⟩, hp]
    dsimp only
    constructor
    · intro hlt; rw [if_pos hlt]
    · intro heq
      by_contra hlt
      rw [if_neg hlt] at heq
      have heq₂ : readCacheFile ⟨ct, te⟩ fs now = (ct, ⟨ct, te⟩) :=
        (Except.ok.injEq _ _).mp heq
      obtain ⟨fields, e₂, _, _, hp₂, hlt₂, hm⟩ :=
        readCacheFile_spec ⟨ct, te⟩ fs now ct ⟨ct, te⟩ heq₂ hct
      have hte₂ : te = (jlookup fields "expiry").getD .null :=
        congrArg Mem.tokenExpiry hm
      rw [← hte₂, hp] at hp₂
      obtain rfl := Option.some.inj hp₂
      exact hlt hlt₂
  · intro t m₂ heq ht
    unfold get_cached_token at heq
    by_cases hb : truthy ct ∧ truthy te
    · rcases Option.isSome_iff_exists.mp (hwf hb.1 hb.2) with ⟨e, hp⟩
      simp only at hp
      rw [if_pos (by simpa using hb), hp] at heq
      dsimp only at heq
      by_cases hlt : now < e
      · rw [if_pos hlt] at heq
        obtain ⟨h1, _⟩ := Prod.mk.injEq .. ▸ (Except.ok.injEq _ _).mp heq
        exact Or.inl ⟨e, hp, h1.symm, hlt⟩
      · rw [if_neg hlt] at heq
        obtain ⟨fields, e₂, hfs, htok, hp₂, hlt₂, _⟩ :=
          readCacheFile_spec ⟨ct, te⟩ fs now t m₂ ((Except.ok.injEq _ _).mp heq) ht
        exact Or.inr ⟨fields, e₂, hfs, htok, hp₂, hlt₂⟩
    · rw [if_neg (by simpa using hb)] at heq
      obtain ⟨fields, e₂, hfs, htok, hp₂, hlt₂, _⟩ :=
        readCacheFile_spec ⟨ct, te⟩ fs now t m₂ ((Except.ok.injEq _ _).mp heq) ht
      exact Or.inr ⟨fields, e₂, hfs, htok, hp₂, hlt₂⟩
  · intro mem₁ hc
    unfold login_to_hemis
    rw [hc]
    dsimp only
    rw [if_neg (by decide : ¬ truthy Json.null = true)]
    by_cases h2 : truthyStr env.login ∧ truthyStr env.password
    · rw [if_neg (by simpa using h2)]
      match loginResp, hresp with
      | none, _ => exact ⟨_, _, _, _, rfl, Or.inl rfl⟩
      | some j, hresp =>
        dsimp only
        by_cases hj : truthy j
        · obtain ⟨fields, rfl, hsucc⟩ := hresp hj
          rw [if_neg (by simpa using hj)]
          simp only [pyGet]
          by_cases hs : truthy ((jlookup fields "success").getD .null)
          · obtain ⟨dfields, tok, hdata, htok⟩ := hsucc hs
            rw [if_neg (by simpa using hs)]
            simp only [pyIndex, hdata, htok]
            exact ⟨_, _, _, _, rfl, Or.inr rfl⟩
          · rw [if_pos (by simpa using hs)]
            exact ⟨_, _, _, _, rfl, Or.inl rfl⟩
        · rw [if_pos (by simpa using hj)]
          exact ⟨_, _, _, _, rfl, Or.inl rfl⟩
    · rw [if_pos (by simpa using h2)]
      exact ⟨_, _, _, _, rfl, Or.inl rfl⟩

/-- C1 witness: the theorem instantiated at a state holding the token "tok"
with expiry timestamp 100, queried at time 50. -/
theorem c1_token_validity_witness :
    wfMem ⟨.str "tok", .str (isoFormat 100)⟩ ∧
    ((∀ e, truthy (Json.str "tok") → truthy (Json.str (isoFormat 100)) →
        pyFromIso (.str (isoFormat 100)) = some e →
        (50 < e ↔ get_cached_token ⟨.str "tok", .str (isoFormat 100)⟩ .absent 50
          = .ok (.str "tok", ⟨.str "tok", .str (isoFormat 100)⟩))) ∧
     (∀ t m₂,
        get_cached_token ⟨.str "tok", .str (isoFormat 100)⟩ .absent 50 = .ok (t, m₂) →
        truthy t →
        (∃ e, pyFromIso (.str (isoFormat 100)) = some e ∧ t = .str "tok" ∧ 50 < e) ∨
        (∃ fields e, FileState.absent = .stored (.obj fields) ∧
          (jlookup fields "token").getD .null = t ∧
          pyFromIso ((jlookup fields "expiry").getD .null) = some e ∧ 50 < e)) ∧
     (∀ mem₁,
        get_cached_token ⟨.str "tok", .str (isoFormat 100)⟩ .absent 50 = .ok (.null, mem₁) →
        ∃ t mem₂ fs₂ calls,
          login_to_hemis ⟨none, none⟩ ⟨.str "tok", .str (isoFormat 100)⟩ .absent 50 none true
            = .ok (t, mem₂, fs₂, calls) ∧
          (t = .null ∨ mem₂ = ⟨t, .str (isoFormat (50 + sevenDays))⟩))) :=
  ⟨by intro _ _; decide,
   c1_token_validity ⟨none, none⟩ ⟨.str "tok", .str (isoFormat 100)⟩ .absent 50 none true
     (by intro _ _; decide) trivial⟩

/-- C2 counterexample: with credentials configured and an empty cache, the
login payload `\x7b"success": true\x7d` — truthy success but no `data`
member — makes `login_to_hemis` raise a `KeyError` at
`response["data"]["token"]` instead of returning a token or `None`. -/
theorem c2_login_raises_counterexample :
    login_to_hemis ⟨some "user", some "pass"⟩ ⟨.null, .null⟩ .absent 0
      (some (.obj [("success", .bool true)])) true = .error .keyErr := by
  rfl

/-- C2 (amended): `login_to_hemis` never raises and returns either no token
(`None`) or a token — drawn from the cache or from the response's
`data.token` member — for a network error, a non-2xx status, a JSON-decode
failure, a falsy payload, or a payload whose success flag is falsy; but a
truthy payload must be an object, and a success payload must carry
`data.token`, otherwise the extraction `response["data"]["token"]` raises
past the boundary. -/
theorem c2_login_no_raise (env : Env) (mem : Mem) (fs : FileState) (now : Nat)
    (loginResp : Option Json) (writeOk : Bool)
    (hwf : wfMem mem) (hresp : respWellFormed loginResp) :
    ∃ t mem₂ fs₂ calls,
      login_to_hemis env mem fs now loginResp writeOk = .ok (t, mem₂, fs₂, calls) ∧
      (t = .null ∨
       (∃ mem₁, get_cached_token mem fs now = .ok (t, mem₁)) ∨
       (∃ fields dfields, loginResp = some (.obj fields) ∧
          jlookup fields "data" = some (.obj dfields) ∧
          jlookup dfields "token" = some t)) := by
  obtain ⟨⟨cached, mem₁⟩, hc⟩ := get_cached_token_total mem fs now hwf
  unfold login_to_hemis
  rw [hc]
  dsimp only
  by_cases h1 : truthy cached
  · exact ⟨cached, mem₁, fs, [], by rw [if_pos h1], Or.inr (Or.inl ⟨mem₁, rfl⟩)⟩
  rw [if_neg h1]
  by_cases h2 : truthyStr env.login ∧ truthyStr env.password
  · rw [if_neg (by simpa using h2)]
    match loginResp, hresp with
    | none, _ => exact ⟨_, _, _, _, rfl, Or.inl rfl⟩
    | some j, hresp =>
      dsimp only
      by_cases hj : truthy j
      · obtain ⟨fields, rfl, hsucc⟩ := hresp hj
        rw [if_neg (by simpa using hj)]
        simp only [pyGet]
        by_cases hs : truthy ((jlookup fields "success").getD .null)
        · obtain ⟨dfields, tok, hdata, htok⟩ := hsucc hs
          rw [if_neg (by simpa using hs)]
          simp only [pyIndex, hdata, htok]
          exact ⟨_, _, _, _, rfl, Or.inr (Or.inr ⟨fields, dfields, rfl, hdata, htok⟩)⟩
        · rw [if_pos (by simpa using hs)]
          exact ⟨_, _, _, _, rfl, Or.inl rfl⟩
      · rw [if_pos (by simpa using hj)]
        exact ⟨_, _, _, _, rfl, Or.inl rfl⟩
  · rw [if_pos (by simpa using h2)]
    exact ⟨_, _, _, _, rfl, Or.inl rfl⟩

/-- C2 witness: a well-formed successful login payload carrying
`data.token`, on an empty cache with credentials configured. -/
theorem c2_login_no_raise_witness :
    wfMem ⟨.null, .null⟩ ∧
    ∃ t mem₂ fs₂ calls,
      login_to_hemis ⟨some "user", some "pass"⟩ ⟨.null, .null⟩ .absent 0
        (some (.obj [("success", .bool true), ("data", .obj [("token", .str "T")])]))
        true = .ok (t, mem₂, fs₂, calls) ∧
      (t = .null ∨
       (∃ mem₁, get_cached_token ⟨.null, .null⟩ .absent 0 = .ok (t, mem₁)) ∨
       (∃ fields dfields,
          (some (.obj [("success", .bool true), ("data", .obj [("token", .str "T")])])
            : Option Json) = some (.obj fields) ∧
          jlookup fields "data" = some (.obj dfields) ∧
          jlookup dfields "token" = some t)) :=
  ⟨by intro h _; exact absurd h (by decide),
   c2_login_no_raise ⟨some "user", some "pass"⟩ ⟨.null, .null⟩ .absent 0
     (some (.obj [("success", .bool true), ("data", .obj [("token", .str "T")])])) true
     (by intro h _; exact absurd h (by decide))
     (fun _ => ⟨_, rfl, fun _ => ⟨[("token", .str "T")], .str "T", rfl, rfl⟩⟩)⟩

/-- C5 counterexample: the empty token string round-trips to `None`, not to
itself — `save_token("")` stores a record whose token is falsy, so
`get_cached_token` skips it even though the stored expiry (now + 7 days) is
still in the future. -/
theorem c5_empty_token_counterexample :
    (1 : Nat) < 0 + sevenDays ∧
    get_cached_token ⟨.null, .null⟩ (save_token (.str "") 0 true .absent).2 1
      = .ok (.null, ⟨.null, .null⟩) ∧
    Json.null ≠ Json.str "" :=
  ⟨by decide, by rfl, by intro h; cases h⟩

/-- On an empty in-memory cache, `get_cached_token` is the file reload. -/
theorem get_cached_token_nullMem (fs : FileState) (now : Nat) :
    get_cached_token ⟨.null, .null⟩ fs now = .ok (readCacheFile ⟨.null, .null⟩ fs now) := by
  unfold get_cached_token
  exact if_neg (by intro h; exact absurd h.1 (by decide))

theorem readCacheFile_stored_valid (mem : Mem) (tok es : Json) (now e : Nat)
    (htok : truthy tok) (hes : truthy es) (hp : pyFromIso es = some e)
    (hlt : now < e) :
    readCacheFile mem (.stored (.obj [("token", tok), ("expiry", es)])) now
      = (tok, ⟨tok, es⟩) := by
  unfold readCacheFile
  have ht : jlookup [("token", tok), ("expiry", es)] "token" = some tok := rfl
  have he : jlookup [("token", tok), ("expiry", es)] "expiry" = some es := rfl
  dsimp only
  rw [ht, he]
  dsimp only [Option.getD]
  rw [if_pos ⟨htok, hes⟩, hp]
  dsimp only
  rw [if_pos hlt]

/-- C5 (amended): for every non-empty token string, if the durable write of
`save_token` succeeds, then after clearing the in-memory cache
`get_cached_token` returns that token again, provided the current time is
still strictly before the stored expiry (now + 7 days). -/
theorem c5_durable_roundtrip (s : String) (now nowR : Nat) (fs : FileState)
    (hs : s ≠ "") (hlt : nowR < now + sevenDays) :
    get_cached_token ⟨.null, .null⟩ (save_token (.str s) now true fs).2 nowR
      = .ok (.str s, ⟨.str s, .str (isoFormat (now + sevenDays))⟩) := by
  have hnz : now + sevenDays ≠ 0 := by unfold sevenDays; omega
  have hsave : (save_token (.str s) now true fs).2
      = .stored (.obj [("token", .str s), ("expiry", .str (isoFormat (now + sevenDays)))]) := rfl
  have htok : truthy (Json.str s) := by simpa [truthy] using hs
  have hes : truthy (Json.str (isoFormat (now + sevenDays))) := by
    simpa [truthy] using isoFormat_ne_empty hnz
  have hp : pyFromIso (.str (isoFormat (now + sevenDays))) = some (now + sevenDays) :=
    isoParse_isoFormat hnz
  rw [hsave, get_cached_token_nullMem,
    readCacheFile_stored_valid ⟨.null, .null⟩ (.str s) (.str (isoFormat (now + sevenDays)))
      nowR (now + sevenDays) htok hes hp hlt]

/-- C5 witness: the token "tok" saved at time 0 and reloaded at time 1. -/
theorem c5_durable_roundtrip_witness :
    "tok" ≠ "" ∧ (1 : Nat) < 0 + sevenDays ∧
    get_cached_token ⟨.null, .null⟩ (save_token (.str "tok") 0 true .absent).2 1
      = .ok (.str "tok", ⟨.str "tok", .str (isoFormat (0 + sevenDays))⟩) :=
  ⟨by decide, by decide,
   c5_durable_roundtrip "tok" 0 1 .absent (by decide) (by decide)⟩

/-! ### Order lemmas for the sort comparators -/

theorem jle_iff (a b : Json) : jle a b = true ↔
    (jrank a ≠ jrank b ∧ jrank a < jrank b) ∨
    (jrank a = jrank b ∧ jrank a = 1 ∧ jstr0 a ≤ jstr0 b) ∨
    (jrank a = jrank b ∧ jrank a ≠ 1 ∧ jnum0 a ≤ jnum0 b) := by
  unfold jle
  by_cases h : jrank a = jrank b
  · rw [if_neg (by simp [h])]
    by_cases h1 : jrank a = 1
    · have hb1 : jrank b = 1 := h ▸ h1
      rw [if_pos h1]; simp [h, h1, hb1]
    · have hb1 : ¬ jrank b = 1 := fun hh => h1 (h.symm ▸ hh)
      rw [if_neg h1]; simp [h, h1, hb1]
  · rw [if_pos h]; simp [h]

theorem jle_total (a b : Json) : jle a b || jle b a := by
  rw [Bool.or_eq_true, jle_iff, jle_iff]
  rcases Nat.lt_trichotomy (jrank a) (jrank b) with h | h | h
  · exact Or.inl (Or.inl ⟨by omega, h⟩)
  · by_cases h1 : jrank a = 1
    · rcases le_total (jstr0 a) (jstr0 b) with h2 | h2
      · exact Or.inl (Or.inr (Or.inl ⟨h, h1, h2⟩))
      · exact Or.inr (Or.inr (Or.inl ⟨h.symm, h ▸ h1, h2⟩))
    · rcases le_total (jnum0 a) (jnum0 b) with h2 | h2
      · exact Or.inl (Or.inr (Or.inr ⟨h, h1, h2⟩))
      · exact Or.inr (Or.inr (Or.inr ⟨h.symm, fun hh => h1 (h ▸ hh), h2⟩))
  · exact Or.inr (Or.inl ⟨by omega, h⟩)

theorem jle_trans (a b c : Json) (h1 : jle a b) (h2 : jle b c) : jle a c := by
  rw [jle_iff] at h1 h2 ⊢
  rcases h1 with ⟨hne, hlt⟩ | ⟨heq, hone, hs⟩ | ⟨heq, hnum, hn⟩ <;>
    rcases h2 with ⟨hne₂, hlt₂⟩ | ⟨heq₂, hone₂, hs₂⟩ | ⟨heq₂, hnum₂, hn₂⟩
  · exact Or.inl ⟨by omega, by omega⟩
  · exact Or.inl ⟨by omega, by omega⟩
  · exact Or.inl ⟨by omega, by omega⟩
  · exact Or.inl ⟨by omega, by omega⟩
  · exact Or.inr (Or.inl ⟨by omega, hone, le_trans hs hs₂⟩)
  · exact absurd (heq ▸ hone) hnum₂
  · exact Or.inl ⟨by omega, by omega⟩
  · exact absurd (heq ▸ hnum) (by simpa using hone₂)
  · exact Or.inr (Or.inr ⟨by omega, hnum, le_trans hn hn₂⟩)

theorem jlePair_total (p q : Json × Json) : jlePair p q || jlePair q p := by
  unfold jlePair
  by_cases h : (jle p.1 q.1 && jle q.1 p.1) = true
  · rw [if_pos h, if_pos (by rw [Bool.and_comm] at h; exact h)]
    exact jle_total p.2 q.2
  · rw [if_neg h, if_neg (by rw [Bool.and_comm]; exact h)]
    exact jle_total p.1 q.1

theorem jlePair_trans (p q r : Json × Json) (h1 : jlePair p q) (h2 : jlePair q r) :
    jlePair p r := by
  unfold jlePair at h1 h2 ⊢
  by_cases hpq : (jle p.1 q.1 && jle q.1 p.1) = true
  · rw [if_pos hpq] at h1
    obtain ⟨hpq₁, hpq₂⟩ := Bool.and_eq_true_iff.mp hpq
    by_cases hqr : (jle q.1 r.1 && jle r.1 q.1) = true
    · rw [if_pos hqr] at h2
      obtain ⟨hqr₁, hqr₂⟩ := Bool.and_eq_true_iff.mp hqr
      rw [if_pos (Bool.and_eq_true_iff.mpr
        ⟨jle_trans _ _ _ hpq₁ hqr₁, jle_trans _ _ _ hqr₂ hpq₂⟩)]
      exact jle_trans _ _ _ h1 h2
    · rw [if_neg hqr] at h2
      have hpr : ¬ (jle p.1 r.1 && jle r.1 p.1) = true := by
        intro hpr
        obtain ⟨hpr₁, hpr₂⟩ := Bool.and_eq_true_iff.mp hpr
        exact hqr (Bool.and_eq_true_iff.mpr
          ⟨h2, jle_trans _ _ _ hpr₂ hpq₁⟩)
      rw [if_neg hpr]
      exact jle_trans _ _ _ hpq₁ h2
  · rw [if_neg hpq] at h1
    by_cases hqr : (jle q.1 r.1 && jle r.1 q.1) = true
    · rw [if_pos hqr] at h2
      obtain ⟨hqr₁, hqr₂⟩ := Bool.and_eq_true_iff.mp hqr
      have hpr : ¬ (jle p.1 r.1 && jle r.1 p.1) = true := by
        intro hpr
        obtain ⟨hpr₁, hpr₂⟩ := Bool.and_eq_true_iff.mp hpr
        exact hpq (Bool.and_eq_true_iff.mpr
          ⟨h1, jle_trans _ _ _ hqr₁ hpr₂⟩)
      rw [if_neg hpr]
      exact jle_trans _ _ _ h1 hqr₁
    · rw [if_neg hqr] at h2
      have hpr : ¬ (jle p.1 r.1 && jle r.1 p.1) = true := by
        intro hpr
        obtain ⟨hpr₁, hpr₂⟩ := Bool.and_eq_true_iff.mp hpr
        exact hpq (Bool.and_eq_true_iff.mpr
          ⟨h1, jle_trans _ _ _ h2 hpr₂⟩)
      rw [if_neg hpr]
      exact jle_trans _ _ _ h1 h2

/-- `jle` on two strings is the lexicographic string order. -/
theorem jle_str (u v : String) : jle (.str u) (.str v) = decide (u ≤ v) := by
  unfold jle jrank jstr0
  simp

/-- `jle` on two numbers is the integer order. -/
theorem jle_num (m n : Int) : jle (.num m) (.num n) = decide (m ≤ n) := by
  unfold jle jrank jnum0 jnumVal
  simp

/-! ### mapME and keyedSortE specifications -/

theorem mapME_forall₂ {α β : Type} {l : List α} {f : α → Except PyErr β}
    {out : List β} (h : mapME l f = .ok out) :
    List.Forall₂ (fun a b => f a = .ok b) l out := by
  induction l generalizing out with
  | nil =>
    simp only [mapME] at h
    obtain rfl := (Except.ok.injEq _ _).mp h
    exact .nil
  | cons x rest ih =>
    simp only [mapME] at h
    match hf : f x with
    | .error e => rw [hf] at h; exact absurd h (by simp)
    | .ok y =>
      rw [hf] at h
      match hr : mapME rest f with
      | .error e => rw [hr] at h; exact absurd h (by simp)
      | .ok ys =>
        rw [hr] at h
        obtain rfl := (Except.ok.injEq _ _).mp h
        exact .cons hf (ih hr)

theorem mapME_mem {α β : Type} {l : List α} {f : α → Except PyErr β}
    {out : List β} (h : mapME l f = .ok out) :
    ∀ b ∈ out, ∃ a ∈ l, f a = .ok b := by
  induction l generalizing out with
  | nil =>
    simp only [mapME] at h
    obtain rfl := (Except.ok.injEq _ _).mp h
    intro b hb; cases hb
  | cons x rest ih =>
    simp only [mapME] at h
    match hf : f x with
    | .error e => rw [hf] at h; exact absurd h (by simp)
    | .ok y =>
      rw [hf] at h
      match hr : mapME rest f with
      | .error e => rw [hr] at h; exact absurd h (by simp)
      | .ok ys =>
        rw [hr] at h
        obtain rfl := (Except.ok.injEq _ _).mp h
        intro b hb
        rcases List.mem_cons.mp hb with rfl | hb₂
        · exact ⟨x, List.mem_cons_self .., hf⟩
        · obtain ⟨a, ha, hfa⟩ := ih hr b hb₂
          exact ⟨a, List.mem_cons_of_mem _ ha, hfa⟩

/-- Specification of `keyedSortE` when every key is described by `g`: the
output is drawn from the input and is pairwise ordered by the keys
(descending when `desc`). -/
theorem keyedSortE_spec (keyf : Json → Except PyErr Json) (desc : Bool)
    (l out : List Json) (g : Json → Json)
    (hg : ∀ x ∈ l, keyf x = .ok (g x))
    (h : keyedSortE keyf desc l = .ok out) :
    (∀ x ∈ out, x ∈ l) ∧
    out.Pairwise (fun a b =>
      (if desc then jle (g b) (g a) else jle (g a) (g b)) = true) := by
  unfold keyedSortE at h
  match hm : mapME l (fun x => (keyf x).map (fun k => (k, x))) with
  | .error e => rw [hm] at h; exact absurd h (by simp)
  | .ok keyed =>
    rw [hm] at h
    dsimp only at h
    by_cases hc : allComparable (keyed.map Prod.fst) = true
    · rw [if_pos hc] at h
      obtain rfl := (Except.ok.injEq _ _).mp h
      have hdesc : ∀ p ∈ List.mergeSort keyed
          (fun p q => if desc then jle q.1 p.1 else jle p.1 q.1),
          p = (g p.2, p.2) ∧ p.2 ∈ l := by
        intro p hp
        rw [List.mem_mergeSort] at hp
        obtain ⟨a, ha, hfa⟩ := mapME_mem hm p hp
        rw [hg a ha] at hfa
        simp only [Except.map] at hfa
        obtain rfl := (Except.ok.injEq _ _).mp hfa
        exact ⟨rfl, ha⟩
      constructor
      · intro x hx
        rw [List.mem_map] at hx
        obtain ⟨p, hp, rfl⟩ := hx
        exact (hdesc p hp).2
      · have htrans : ∀ p q r : Json × Json,
            (if desc then jle q.1 p.1 else jle p.1 q.1) = true →
            (if desc then jle r.1 q.1 else jle q.1 r.1) = true →
            (if desc then jle r.1 p.1 else jle p.1 r.1) = true := by
          intro p q r h1 h2
          cases desc
          · exact jle_trans _ _ _ h1 h2
          · exact jle_trans _ _ _ h2 h1
        have htotal : ∀ p q : Json × Json,
            ((if desc then jle q.1 p.1 else jle p.1 q.1) ||
             (if desc then jle p.1 q.1 else jle q.1 p.1)) = true := by
          intro p q
          cases desc
          · exact jle_total p.1 q.1
          · exact jle_total q.1 p.1
        have hs := @List.sorted_mergeSort _
          (fun p q : Json × Json => if desc then jle q.1 p.1 else jle p.1 q.1)
          htrans htotal keyed
        rw [List.pairwise_map]
        refine hs.imp_of_mem ?_
        intro p q hp hq hle
        obtain ⟨hpe, _⟩ := hdesc p hp
        obtain ⟨hqe, _⟩ := hdesc q hq
        rw [hpe, hqe] at hle
        exact hle
    · rw [if_neg hc] at h; exact absurd h (by simp)

/-- Specification of `keyedSortE2` with both key components described. -/
theorem keyedSortE2_spec (keyf₁ keyf₂ : Json → Except PyErr Json)
    (l out : List Json) (g₁ g₂ : Json → Json)
    (hg₁ : ∀ x ∈ l, keyf₁ x = .ok (g₁ x))
    (hg₂ : ∀ x ∈ l, keyf₂ x = .ok (g₂ x))
    (h : keyedSortE2 keyf₁ keyf₂ l = .ok out) :
    (∀ x ∈ out, x ∈ l) ∧
    out.Pairwise (fun a b => jlePair (g₁ a, g₂ a) (g₁ b, g₂ b) = true) := by
  unfold keyedSortE2 at h
  match hm : mapME l (fun x => do
      let a ← keyf₁ x
      let b ← keyf₂ x
      pure ((a, b), x)) with
  | .error e => rw [hm] at h; exact absurd h (by simp)
  | .ok keyed =>
    rw [hm] at h
    dsimp only at h
    by_cases hc : (allComparable (keyed.map (fun p => p.1.1))
        && allComparable (keyed.map (fun p => p.1.2))) = true
    · rw [if_pos hc] at h
      obtain rfl := (Except.ok.injEq _ _).mp h
      have hdesc : ∀ p ∈ List.mergeSort keyed (fun p q => jlePair p.1 q.1),
          p = ((g₁ p.2, g₂ p.2), p.2) ∧ p.2 ∈ l := by
        intro p hp
        rw [List.mem_mergeSort] at hp
        obtain ⟨a, ha, hfa⟩ := mapME_mem hm p hp
        rw [show (do
            let u ← keyf₁ a
            let v ← keyf₂ a
            pure ((u, v), a) : Except PyErr ((Json × Json) × Json))
          = .ok ((g₁ a, g₂ a), a) by rw [hg₁ a ha, hg₂ a ha]; rfl] at hfa
        obtain rfl := (Except.ok.injEq _ _).mp hfa
        exact ⟨rfl, ha⟩
      constructor
      · intro x hx
        rw [List.mem_map] at hx
        obtain ⟨p, hp, rfl⟩ := hx
        exact (hdesc p hp).2
      · have hs := @List.sorted_mergeSort _
          (fun p q : (Json × Json) × Json => jlePair p.1 q.1)
          (fun p q r h1 h2 => jlePair_trans _ _ _ h1 h2)
          (fun p q => jlePair_total p.1 q.1) keyed
        rw [List.pairwise_map]
        refine hs.imp_of_mem ?_
        intro p q hp hq hle
        obtain ⟨hpe, _⟩ := hdesc p hp
        obtain ⟨hqe, _⟩ := hdesc q hq
        rw [hpe, hqe] at hle
        exact hle
    · rw [if_neg hc] at h; exact absurd h (by simp)

theorem mapME_ok_of_forall {α β : Type} (l : List α) (f : α → Except PyErr β)
    (g : α → β) (hf : ∀ x ∈ l, f x = .ok (g x)) : mapME l f = .ok (l.map g) := by
  induction l with
  | nil => rfl
  | cons x rest ih =>
    simp only [mapME, hf x (List.mem_cons_self ..),
      ih (fun y hy => hf y (List.mem_cons_of_mem _ hy)), List.map_cons]

theorem allComparable_of_str (ks : List Json)
    (h : ∀ k ∈ ks, ∃ s : String, k = .str s) : allComparable ks = true := by
  unfold allComparable
  rw [List.all_eq_true]
  intro a ha
  rw [List.all_eq_true]
  intro b hb
  obtain ⟨u, rfl⟩ := h a ha
  obtain ⟨v, rfl⟩ := h b hb
  rfl

theorem allComparable_of_num (ks : List Json)
    (h : ∀ k ∈ ks, ∃ n : Int, k = .num n) : allComparable ks = true := by
  unfold allComparable
  rw [List.all_eq_true]
  intro a ha
  rw [List.all_eq_true]
  intro b hb
  obtain ⟨u, rfl⟩ := h a ha
  obtain ⟨v, rfl⟩ := h b hb
  rfl

/-- `keyedSortE` succeeds whenever the key extraction succeeds everywhere
and the keys are comparable. -/
theorem keyedSortE_ok (keyf : Json → Except PyErr Json) (desc : Bool)
    (l : List Json) (g : Json → Json)
    (hg : ∀ x ∈ l, keyf x = .ok (g x))
    (hc : allComparable (l.map g) = true) :
    ∃ out, keyedSortE keyf desc l = .ok out := by
  unfold keyedSortE
  rw [mapME_ok_of_forall l _ (fun x => (g x, x))
    (fun x hx => by rw [hg x hx]; rfl)]
  dsimp only
  rw [if_pos (by rw [List.map_map]; exact hc)]
  exact ⟨_, rfl⟩

theorem keyedSortE2_ok (keyf₁ keyf₂ : Json → Except PyErr Json)
    (l : List Json) (g₁ g₂ : Json → Json)
    (hg₁ : ∀ x ∈ l, keyf₁ x = .ok (g₁ x))
    (hg₂ : ∀ x ∈ l, keyf₂ x = .ok (g₂ x))
    (hc₁ : allComparable (l.map g₁) = true)
    (hc₂ : allComparable (l.map g₂) = true) :
    ∃ out, keyedSortE2 keyf₁ keyf₂ l = .ok out := by
  unfold keyedSortE2
  rw [mapME_ok_of_forall l _ (fun x => ((g₁ x, g₂ x), x))
    (fun x hx => by rw [hg₁ x hx]; dsimp only [bind, Except.bind]; rw [hg₂ x hx]; rfl)]
  dsimp only
  rw [if_pos]
  · exact ⟨_, rfl⟩
  · rw [Bool.and_eq_true_iff]
    constructor
    · rw [List.map_map]; exact hc₁
    · rw [List.map_map]; exact hc₂

/-- Unpacking a lexicographic key comparison into date and period order. -/
theorem jlePair_num_str {m n : Int} {u v : String}
    (h : jlePair (.num m, .str u) (.num n, .str v) = true) :
    m < n ∨ (m = n ∧ u ≤ v) := by
  unfold jlePair at h
  simp only [jle_num, jle_str] at h
  by_cases hmn : (decide (m ≤ n) && decide (n ≤ m)) = true
  · rw [if_pos hmn] at h
    simp only [Bool.and_eq_true, decide_eq_true_eq] at hmn h
    exact Or.inr ⟨le_antisymm hmn.1 hmn.2, h⟩
  · rw [if_neg hmn] at h
    simp only [Bool.and_eq_true, decide_eq_true_eq, not_and] at hmn
    simp only [decide_eq_true_eq] at h
    exact Or.inl (by omega)

/-- C8 — with every GPA record carrying a string `educationYear.code` and
every schedule entry carrying a numeric `lesson_date` and string
`lessonPair.code`: the GPA sort succeeds and yields the records pairwise
sorted by academic-year code descending, and the schedule sort succeeds and
yields the entries pairwise sorted by (lesson date, lesson-period code)
ascending. -/
theorem c8_report_orders (gl sl : List Json)
    (hg : ∀ x ∈ gl, ∃ s : String, gpaYearCode x = .ok (.str s))
    (hd : ∀ x ∈ sl, ∃ n : Int, scheduleDateKey x = .ok (.num n))
    (hp : ∀ x ∈ sl, ∃ s : String, schedulePairKey x = .ok (.str s)) :
    ((∃ out, gpaSorted gl = .ok out) ∧
     (∀ out, gpaSorted gl = .ok out →
       out.Pairwise (fun a b => gpaCodeStr b ≤ gpaCodeStr a))) ∧
    ((∃ out, scheduleSorted sl = .ok out) ∧
     (∀ out, scheduleSorted sl = .ok out →
       out.Pairwise (fun a b => scheduleDateVal a < scheduleDateVal b ∨
         (scheduleDateVal a = scheduleDateVal b ∧
          schedulePairStr a ≤ schedulePairStr b)))) := by
  have hgd : ∀ x ∈ gl, gpaYearCode x = .ok (.str (gpaCodeStr x)) := by
    intro x hx
    obtain ⟨s, hs⟩ := hg x hx
    rw [hs, gpaCodeStr, hs]
  have hdd : ∀ x ∈ sl, scheduleDateKey x = .ok (.num (scheduleDateVal x)) := by
    intro x hx
    obtain ⟨n, hn⟩ := hd x hx
    rw [hn, scheduleDateVal, hn]
  have hpd : ∀ x ∈ sl, schedulePairKey x = .ok (.str (schedulePairStr x)) := by
    intro x hx
    obtain ⟨s, hs⟩ := hp x hx
    rw [hs, schedulePairStr, hs]
  refine ⟨⟨?_, ?_⟩, ?_, ?_⟩
  · exact keyedSortE_ok gpaYearCode true gl (fun x => .str (gpaCodeStr x)) hgd
      (allComparable_of_str _ (by
        intro k hk
        rw [List.mem_map] at hk
        obtain ⟨x, _, rfl⟩ := hk
        exact ⟨_, rfl⟩))
  · intro out hout
    obtain ⟨_, hpw⟩ := keyedSortE_spec gpaYearCode true gl out
      (fun x => .str (gpaCodeStr x)) hgd hout
    refine hpw.imp ?_
    intro a b hab
    simp only [jle_str, if_true, eq_self_iff_true, decide_eq_true_eq] at hab
    exact hab
  · exact keyedSortE2_ok scheduleDateKey schedulePairKey sl
      (fun x => .num (scheduleDateVal x)) (fun x => .str (schedulePairStr x))
      hdd hpd
      (allComparable_of_num _ (by
        intro k hk
        rw [List.mem_map] at hk
        obtain ⟨x, _, rfl⟩ := hk
        exact ⟨_, rfl⟩))
      (allComparable_of_str _ (by
        intro k hk
        rw [List.mem_map] at hk
        obtain ⟨x, _, rfl⟩ := hk
        exact ⟨_, rfl⟩))
  · intro out hout
    obtain ⟨_, hpw⟩ := keyedSortE2_spec scheduleDateKey schedulePairKey sl out
      (fun x => .num (scheduleDateVal x)) (fun x => .str (schedulePairStr x))
      hdd hpd hout
    refine hpw.imp ?_
    intro a b hab
    exact jlePair_num_str hab

/-- C8 witness: two GPA records with year codes 2024 and 2023, and two
schedule entries with dates 10 and 5. -/
theorem c8_report_orders_witness :
    ((∃ out, gpaSorted
        [.obj [("educationYear", .obj [("code", .str "2024")])],
         .obj [("educationYear", .obj [("code", .str "2023")])]] = .ok out) ∧
     (∀ out, gpaSorted
        [.obj [("educationYear", .obj [("code", .str "2024")])],
         .obj [("educationYear", .obj [("code", .str "2023")])]] = .ok out →
       out.Pairwise (fun a b => gpaCodeStr b ≤ gpaCodeStr a))) ∧
    ((∃ out, scheduleSorted
        [.obj [("lesson_date", .num 10), ("lessonPair", .obj [("code", .str "1")])],
         .obj [("lesson_date", .num 5)]] = .ok out) ∧
     (∀ out, scheduleSorted
        [.obj [("lesson_date", .num 10), ("lessonPair", .obj [("code", .str "1")])],
         .obj [("lesson_date", .num 5)]] = .ok out →
       out.Pairwise (fun a b => scheduleDateVal a < scheduleDateVal b ∨
         (scheduleDateVal a = scheduleDateVal b ∧
          schedulePairStr a ≤ schedulePairStr b)))) :=
  c8_report_orders
    [.obj [("educationYear", .obj [("code", .str "2024")])],
     .obj [("educationYear", .obj [("code", .str "2023")])]]
    [.obj [("lesson_date", .num 10), ("lessonPair", .obj [("code", .str "1")])],
     .obj [("lesson_date", .num 5)]]
    (by
      intro x hx
      simp only [List.mem_cons, List.not_mem_nil, or_false] at hx
      rcases hx with rfl | rfl
      · exact ⟨"2024", rfl⟩
      · exact ⟨"2023", rfl⟩)
    (by
      intro x hx
      simp only [List.mem_cons, List.not_mem_nil, or_false] at hx
      rcases hx with rfl | rfl
      · exact ⟨10, rfl⟩
      · exact ⟨5, rfl⟩)
    (by
      intro x hx
      simp only [List.mem_cons, List.not_mem_nil, or_false] at hx
      rcases hx with rfl | rfl
      · exact ⟨"1", rfl⟩
      · exact ⟨"", rfl⟩)

theorem addToGroups_keys (acc : List (Json × List Json)) (k d : Json) :
    ∀ k₂ ∈ (addToGroups acc k d).map Prod.fst,
      k₂ ∈ acc.map Prod.fst ∨ k₂ = k := by
  induction acc with
  | nil =>
    intro k₂ hk
    simp only [addToGroups, List.map_cons, List.map_nil, List.mem_singleton] at hk
    exact Or.inr hk
  | cons p rest ih =>
    intro k₂ hk
    obtain ⟨kp, ds⟩ := p
    simp only [addToGroups] at hk
    by_cases he : pyEq kp k = true
    · rw [if_pos he] at hk
      simp only [List.map_cons, List.mem_cons] at hk
      rcases hk with rfl | hk
      · exact Or.inl (by simp)
      · exact Or.inl (by simp [hk])
    · rw [if_neg he] at hk
      simp only [List.map_cons, List.mem_cons] at hk
      rcases hk with rfl | hk
      · exact Or.inl (by simp)
      · rcases ih k₂ hk with h | h
        · exact Or.inl (by simp [h])
        · exact Or.inr h

theorem addToGroups_members (acc : List (Json × List Json)) (k d : Json) :
    ∀ x ∈ groupMembers (addToGroups acc k d),
      x ∈ groupMembers acc ∨ x = d := by
  induction acc with
  | nil =>
    intro x hx
    simp only [addToGroups, groupMembers, List.map_cons, List.map_nil,
      List.flatten, List.append_nil, List.mem_singleton] at hx
    exact Or.inr hx
  | cons p rest ih =>
    intro x hx
    obtain ⟨kp, ds⟩ := p
    simp only [addToGroups] at hx
    by_cases he : pyEq kp k = true
    · rw [if_pos he] at hx
      simp only [groupMembers, List.map_cons, List.flatten_cons, List.mem_append,
        List.mem_cons, List.mem_singleton, List.not_mem_nil, or_false] at hx ⊢
      tauto
    · rw [if_neg he] at hx
      simp only [groupMembers, List.map_cons, List.flatten_cons, List.mem_append] at hx ⊢
      rcases hx with hx | hx
      · exact Or.inl (Or.inl hx)
      · rcases ih x hx with h | h
        · exact Or.inl (Or.inr h)
        · exact Or.inr h

theorem groupDocs_keys (docs : List Json) (acc gs : List (Json × List Json))
    (h : groupDocs docs acc = .ok gs) :
    ∀ k ∈ gs.map Prod.fst,
      k ∈ acc.map Prod.fst ∨
      ∃ d ∈ docs, pyGetD d "type" (.str "unknown") = .ok k := by
  induction docs generalizing acc with
  | nil =>
    simp only [groupDocs] at h
    obtain rfl := (Except.ok.injEq _ _).mp h
    intro k hk
    exact Or.inl hk
  | cons d rest ih =>
    simp only [groupDocs] at h
    match hty : pyGetD d "type" (.str "unknown") with
    | .error e => rw [hty] at h; exact absurd h (by simp)
    | .ok kd =>
      rw [hty] at h
      intro k hk
      rcases ih (addToGroups acc kd d) h k hk with hin | ⟨d₂, hd₂, he⟩
      · rcases addToGroups_keys acc kd d k hin with hin₂ | rfl
        · exact Or.inl hin₂
        · exact Or.inr ⟨d, List.mem_cons_self .., hty⟩
      · exact Or.inr ⟨d₂, List.mem_cons_of_mem _ hd₂, he⟩

theorem groupDocs_members (docs : List Json) (acc gs : List (Json × List Json))
    (h : groupDocs docs acc = .ok gs) :
    ∀ x ∈ groupMembers gs, x ∈ groupMembers acc ∨ x ∈ docs := by
  induction docs generalizing acc with
  | nil =>
    simp only [groupDocs] at h
    obtain rfl := (Except.ok.injEq _ _).mp h
    intro x hx
    exact Or.inl hx
  | cons d rest ih =>
    simp only [groupDocs] at h
    match hty : pyGetD d "type" (.str "unknown") with
    | .error e => rw [hty] at h; exact absurd h (by simp)
    | .ok kd =>
      rw [hty] at h
      intro x hx
      rcases ih (addToGroups acc kd d) h x hx with hin | hin
      · rcases addToGroups_members acc kd d x hin with hin₂ | rfl
        · exact Or.inl hin₂
        · exact Or.inr (List.mem_cons_self ..)
      · exact Or.inr (List.mem_cons_of_mem _ hin)

theorem lookupGroup_members (gs : List (Json × List Json)) (k : Json)
    (ds : List Json) (h : lookupGroup gs k = some ds) :
    ∀ x ∈ ds, x ∈ groupMembers gs := by
  induction gs with
  | nil => cases h
  | cons p rest ih =>
    obtain ⟨kp, dsp⟩ := p
    simp only [lookupGroup] at h
    by_cases he : pyEq kp k = true
    · rw [if_pos he] at h
      obtain rfl := Option.some.inj h
      intro x hx
      simp only [groupMembers, List.map_cons, List.flatten_cons, List.mem_append]
      exact Or.inl hx
    · rw [if_neg he] at h
      intro x hx
      simp only [groupMembers, List.map_cons, List.flatten_cons, List.mem_append]
      exact Or.inr (ih h x hx)

theorem mapME_ok_of_exists {α β : Type} (l : List α) (f : α → Except PyErr β)
    (hf : ∀ x ∈ l, ∃ y, f x = .ok y) : ∃ out, mapME l f = .ok out := by
  induction l with
  | nil => exact ⟨[], rfl⟩
  | cons x rest ih =>
    obtain ⟨y, hy⟩ := hf x (List.mem_cons_self ..)
    obtain ⟨ys, hys⟩ := ih (fun z hz => hf z (List.mem_cons_of_mem _ hz))
    exact ⟨y :: ys, by simp only [mapME, hy, hys]⟩

theorem groupDocs_ok (docs : List Json) (acc : List (Json × List Json))
    (hty : ∀ d ∈ docs, ∃ s : String, pyGetD d "type" (.str "unknown") = .ok (.str s)) :
    ∃ gs, groupDocs docs acc = .ok gs := by
  induction docs generalizing acc with
  | nil => exact ⟨acc, rfl⟩
  | cons d rest ih =>
    obtain ⟨s, hs⟩ := hty d (List.mem_cons_self ..)
    obtain ⟨gs, hgs⟩ := ih (addToGroups acc (.str s) d)
      (fun z hz => hty z (List.mem_cons_of_mem _ hz))
    exact ⟨gs, by simp only [groupDocs, hs, hgs]⟩

theorem mapME_fst {α β : Type} {l : List α} {f : α → Except PyErr (α × β)}
    {gs : List (α × β)} (h : mapME l f = .ok gs)
    (hf : ∀ k p, f k = .ok p → p.1 = k) : gs.map Prod.fst = l := by
  induction l generalizing gs with
  | nil =>
    simp only [mapME] at h
    obtain rfl := (Except.ok.injEq _ _).mp h
    rfl
  | cons x rest ih =>
    simp only [mapME] at h
    match hx : f x with
    | .error e => rw [hx] at h; exact absurd h (by simp)
    | .ok y =>
      rw [hx] at h
      match hr : mapME rest f with
      | .error e => rw [hr] at h; exact absurd h (by simp)
      | .ok ys =>
        rw [hr] at h
        obtain rfl := (Except.ok.injEq _ _).mp h
        simp only [List.map_cons, hf x y hx, ih hr]

theorem bindPure_inv {k : Json} {p : Json × List Json}
    {e : Except PyErr (List Json)}
    (h : (do let s ← e; pure (k, s) : Except PyErr (Json × List Json)) = .ok p) :
    ∃ s, e = .ok s ∧ p = (k, s) := by
  match e with
  | .error err => exact absurd h (by simp [bind, Except.bind])
  | .ok s =>
    simp only [bind, Except.bind, pure, Except.pure, Except.ok.injEq] at h
    exact ⟨s, rfl, h.symm⟩

/-- C7 — with every document's `type` a string (or absent, defaulting to
"unknown") and every document's `id` a number (or absent, defaulting to 0):
`documentGroups` — the grouped structure that the `get_all_student_documents`
report iterates — succeeds, its groups appear sorted by type name ascending,
and within each group the documents appear sorted by id descending. -/
theorem c7_document_grouping (docs : List Json)
    (hty : ∀ d ∈ docs, ∃ s : String, pyGetD d "type" (.str "unknown") = .ok (.str s))
    (hid : ∀ d ∈ docs, ∃ n : Int, pyGetD d "id" (.num 0) = .ok (.num n)) :
    (∃ gs, documentGroups docs = .ok gs) ∧
    (∀ gs, documentGroups docs = .ok gs →
      (gs.map Prod.fst).Pairwise (fun a b => jstr0 a ≤ jstr0 b) ∧
      ∀ p ∈ gs, p.2.Pairwise (fun a b => docIdVal b ≤ docIdVal a)) := by
  obtain ⟨groups, hgr⟩ := groupDocs_ok docs [] hty
  have hkeys : ∀ k ∈ groups.map Prod.fst, ∃ s : String, k = .str s := by
    intro k hk
    rcases groupDocs_keys docs [] groups hgr k hk with hin | ⟨d, hd, he⟩
    · cases hin
    · obtain ⟨s, hs⟩ := hty d hd
      rw [hs] at he
      exact ⟨s, ((Except.ok.injEq _ _).mp he).symm⟩
  have hcomp : allComparable (groups.map Prod.fst) = true :=
    allComparable_of_str _ hkeys
  have hmem : ∀ k, ∀ d ∈ (lookupGroup groups k).getD [], d ∈ docs := by
    intro k d hd
    match hl : lookupGroup groups k with
    | none => rw [hl] at hd; cases hd
    | some ds =>
      rw [hl] at hd
      rcases groupDocs_members docs [] groups hgr d
        (lookupGroup_members groups k ds hl d hd) with h | h
      · cases h
      · exact h
  have hidd : ∀ k, ∀ d ∈ (lookupGroup groups k).getD [],
      pyGetD d "id" (.num 0) = .ok (.num (docIdVal d)) := by
    intro k d hd
    obtain ⟨n, hn⟩ := hid d (hmem k d hd)
    rw [hn, docIdVal, hn]
  have hidc : ∀ k, allComparable
      (((lookupGroup groups k).getD []).map (fun d => Json.num (docIdVal d))) = true := by
    intro k
    refine allComparable_of_num _ ?_
    intro x hx
    rw [List.mem_map] at hx
    obtain ⟨d, _, rfl⟩ := hx
    exact ⟨_, rfl⟩
  have hsortOk : ∀ k ∈ List.mergeSort (groups.map Prod.fst) jle,
      ∃ y, (do
        let sorted ← keyedSortE (fun d => pyGetD d "id" (.num 0)) true
          ((lookupGroup groups k).getD [])
        pure (k, sorted) : Except PyErr (Json × List Json)) = .ok y := by
    intro k _
    obtain ⟨sorted, hsorted⟩ := keyedSortE_ok (fun d => pyGetD d "id" (.num 0)) true
      ((lookupGroup groups k).getD []) (fun d => .num (docIdVal d))
      (hidd k) (hidc k)
    exact ⟨(k, sorted), by rw [hsorted]; rfl⟩
  constructor
  · obtain ⟨gs, hgs⟩ := mapME_ok_of_exists _ _ hsortOk
    refine ⟨gs, ?_⟩
    unfold documentGroups
    rw [hgr]
    dsimp only
    rw [if_pos hcomp]
    exact hgs
  · intro gs hgs
    unfold documentGroups at hgs
    rw [hgr] at hgs
    dsimp only at hgs
    rw [if_pos hcomp] at hgs
    have hfst : gs.map Prod.fst = List.mergeSort (groups.map Prod.fst) jle :=
      mapME_fst hgs (fun k p hp => by
        obtain ⟨s, _, rfl⟩ := bindPure_inv hp
        rfl)
    constructor
    · rw [hfst]
      have hs := @List.sorted_mergeSort _ jle jle_trans jle_total
        (groups.map Prod.fst)
      refine hs.imp_of_mem ?_
      intro a b ha hb hab
      rw [List.mem_mergeSort] at ha hb
      obtain ⟨u, rfl⟩ := hkeys a ha
      obtain ⟨v, rfl⟩ := hkeys b hb
      rw [jle_str] at hab
      simpa using hab
    · intro p hp
      obtain ⟨k, _, hfp⟩ := mapME_mem hgs p hp
      obtain ⟨sorted, hsorted, rfl⟩ := bindPure_inv hfp
      obtain ⟨_, hpw⟩ := keyedSortE_spec (fun d => pyGetD d "id" (.num 0)) true
        ((lookupGroup groups k).getD []) sorted (fun d => .num (docIdVal d))
        (hidd k) hsorted
      refine hpw.imp ?_
      intro a b hab
      simp only [if_true, eq_self_iff_true, jle_num, decide_eq_true_eq] at hab
      exact hab

/-- C7 witness: three documents — two diplomas with ids 1 and 2 and one
reference with id 5. -/
theorem c7_document_grouping_witness :
    (∃ gs, documentGroups
      [.obj [("type", .str "diploma"), ("id", .num 1)],
       .obj [("type", .str "reference"), ("id", .num 5)],
       .obj [("type", .str "diploma"), ("id", .num 2)]] = .ok gs) ∧
    (∀ gs, documentGroups
      [.obj [("type", .str "diploma"), ("id", .num 1)],
       .obj [("type", .str "reference"), ("id", .num 5)],
       .obj [("type", .str "diploma"), ("id", .num 2)]] = .ok gs →
      (gs.map Prod.fst).Pairwise (fun a b => jstr0 a ≤ jstr0 b) ∧
      ∀ p ∈ gs, p.2.Pairwise (fun a b => docIdVal b ≤ docIdVal a)) :=
  c7_document_grouping
    [.obj [("type", .str "diploma"), ("id", .num 1)],
     .obj [("type", .str "reference"), ("id", .num 5)],
     .obj [("type", .str "diploma"), ("id", .num 2)]]
    (by
      intro d hd
      simp only [List.mem_cons, List.not_mem_nil, or_false] at hd
      rcases hd with rfl | rfl | rfl
      · exact ⟨"diploma", rfl⟩
      · exact ⟨"reference", rfl⟩
      · exact ⟨"diploma", rfl⟩)
    (by
      intro d hd
      simp only [List.mem_cons, List.not_mem_nil, or_false] at hd
      rcases hd with rfl | rfl | rfl
      · exact ⟨1, rfl⟩
      · exact ⟨5, rfl⟩
      · exact ⟨2, rfl⟩)

/-- With unusable credentials and no token from the cache, `login_to_hemis`
returns `None` without issuing any HTTP request. -/
theorem login_noCreds (env : Env) (mem mem₁ : Mem) (fs : FileState) (now : Nat)
    (loginResp : Option Json) (writeOk : Bool)
    (hcreds : ¬ (truthyStr env.login ∧ truthyStr env.password))
    (hc : get_cached_token mem fs now = .ok (.null, mem₁)) :
    login_to_hemis env mem fs now loginResp writeOk = .ok (.null, mem₁, fs, []) := by
  unfold login_to_hemis
  rw [hc]
  dsimp only
  rw [if_neg (by decide : ¬ truthy Json.null = true), if_pos (by simpa using hcreds)]

/-- A protected tool whose login yielded no token returns the fixed
authentication-failure message and performs no request. -/
theorem protectedTool_authFail (env : Env) (mem : Mem) (fs : FileState) (now : Nat)
    (loginResp : Option Json) (writeOk : Bool) (fetchResp : Option Json)
    (endpoint failMsg : String) (body : Json → Except PyErr String) (mem₁ : Mem)
    (hlogin : login_to_hemis env mem fs now loginResp writeOk = .ok (.null, mem₁, fs, [])) :
    protectedTool env mem fs now loginResp writeOk fetchResp endpoint failMsg body
      = .ok (authFailMsg, mem₁, fs, []) := by
  unfold protectedTool
  rw [hlogin]
  dsimp only
  rw [if_pos (by decide : ¬ truthy Json.null = true)]

/-- C6 counterexample: with no credentials configured but an unexpired token
"tok" in the in-memory cache, `get_student_profile` does not return the
authentication-failure string — it proceeds to the backend (here the fetch
fails) and issues an HTTP GET. -/
theorem c6_cached_token_counterexample :
    get_student_profile ⟨none, none⟩ ⟨.str "tok", .str (isoFormat 100)⟩ .absent 50
      none true none (fun _ => "") "en-US"
      = .ok ("Unable to fetch student profile information.",
             ⟨.str "tok", .str (isoFormat 100)⟩, .absent,
             [.get "account/me?l=en-US"]) ∧
    "Unable to fetch student profile information." ≠ authFailMsg ∧
    ([HttpCall.get "account/me?l=en-US"] : List HttpCall) ≠ [] :=
  ⟨by rfl, by decide, by decide⟩

/-- C6 (amended): when no usable credentials are configured **and no
unexpired token is available from the cache**, every modelled protected tool
returns the literal string "Unable to authenticate with HEMIS. Please check
your credentials." and no HTTP request is issued. -/
theorem c6_no_creds_no_call (env : Env) (mem mem₁ : Mem) (fs : FileState)
    (now : Nat) (loginResp : Option Json) (writeOk : Bool) (fetchResp : Option Json)
    (fmtDate : Int → String) (fmtRate : ℚ → String) (fmtTitle fmtDay : String → String)
    (subject semester language : String) (week : Option String)
    (hcreds : ¬ (truthyStr env.login ∧ truthyStr env.password))
    (hc : get_cached_token mem fs now = .ok (.null, mem₁)) :
    get_student_profile env mem fs now loginResp writeOk fetchResp fmtDate language
      = .ok (authFailMsg, mem₁, fs, []) ∧
    get_student_gpa_list env mem fs now loginResp writeOk fetchResp language
      = .ok (authFailMsg, mem₁, fs, []) ∧
    get_student_attendance env mem fs now loginResp writeOk fetchResp
        fmtDate fmtRate subject semester language
      = .ok (authFailMsg, mem₁, fs, []) ∧
    get_all_student_documents env mem fs now loginResp writeOk fetchResp
        fmtTitle language
      = .ok (authFailMsg, mem₁, fs, []) ∧
    get_student_schedule env mem fs now loginResp writeOk fetchResp
        fmtDate fmtDay semester week language
      = .ok (authFailMsg, mem₁, fs, []) := by
  have hl := login_noCreds env mem mem₁ fs now loginResp writeOk hcreds hc
  exact ⟨protectedTool_authFail env mem fs now loginResp writeOk fetchResp _ _ _ mem₁ hl,
         protectedTool_authFail env mem fs now loginResp writeOk fetchResp _ _ _ mem₁ hl,
         protectedTool_authFail env mem fs now loginResp writeOk fetchResp _ _ _ mem₁ hl,
         protectedTool_authFail env mem fs now loginResp writeOk fetchResp _ _ _ mem₁ hl,
         protectedTool_authFail env mem fs now loginResp writeOk fetchResp _ _ _ mem₁ hl⟩

/-- C6 witness: no credentials, empty cache, at time 0. -/
theorem c6_no_creds_no_call_witness :
    ¬ (truthyStr none ∧ truthyStr none) ∧
    get_cached_token ⟨.null, .null⟩ .absent 0 = .ok (.null, ⟨.null, .null⟩) ∧
    (get_student_profile ⟨none, none⟩ ⟨.null, .null⟩ .absent 0 none true none
        (fun _ => "") "en-US"
      = .ok (authFailMsg, ⟨.null, .null⟩, .absent, []) ∧
     get_student_gpa_list ⟨none, none⟩ ⟨.null, .null⟩ .absent 0 none true none "en-US"
      = .ok (authFailMsg, ⟨.null, .null⟩, .absent, []) ∧
     get_student_attendance ⟨none, none⟩ ⟨.null, .null⟩ .absent 0 none true none
        (fun _ => "") (fun _ => "") "1" "11" "en-US"
      = .ok (authFailMsg, ⟨.null, .null⟩, .absent, []) ∧
     get_all_student_documents ⟨none, none⟩ ⟨.null, .null⟩ .absent 0 none true none
        (fun s => s) "en-US"
      = .ok (authFailMsg, ⟨.null, .null⟩, .absent, []) ∧
     get_student_schedule ⟨none, none⟩ ⟨.null, .null⟩ .absent 0 none true none
        (fun _ => "") (fun s => s) "11" none "en-US"
      = .ok (authFailMsg, ⟨.null, .null⟩, .absent, [])) :=
  ⟨by decide, by rfl,
   c6_no_creds_no_call ⟨none, none⟩ ⟨.null, .null⟩ ⟨.null, .null⟩ .absent 0 none true
     none (fun _ => "") (fun _ => "") (fun s => s) (fun s => s) "1" "11" "en-US" none
     (by decide) (by rfl)⟩

theorem str_data_append (a b : String) : (a ++ b).data = a.data ++ b.data := rfl

/-- A marker that is no prefix-relative of the literal head of a line is not
a prefix of the whole line. -/
theorem not_linePref_concat {p c : String} (x : String)
    (h : ¬ (p.data <+: c.data ∨ c.data <+: p.data)) : ¬ linePref p (c ++ x) := by
  unfold linePref
  rw [str_data_append]
  intro hp
  exact h (List.prefix_or_prefix_of_prefix hp (List.prefix_append _ _))

/-- C9 — a fetched profile payload missing the optional `birth_date` and
`email` fields formats without raising and its report omits the Birth Date
and Email lines; a fetched task payload missing the optional `attempt_limit`
formats without raising and its report omits the Attempt Limit line. -/
theorem c9_optional_fields_omitted (p : ProfileData) (t : TaskData)
    (fmtDate fmtDT fmtMB fmtKB : Int → String) :
    (∃ lines, formatProfileLines (mkProfile p) fmtDate = .ok lines ∧
      ∀ l ∈ lines, ¬ linePref "- Email:" l ∧ ¬ linePref "- Birth Date:" l) ∧
    (∃ lines, formatTaskLines (mkTask t) fmtDT fmtMB fmtKB = .ok lines ∧
      ∀ l ∈ lines, ¬ linePref "- **Attempt Limit:**" l) := by
  have hprof : formatProfileLines (mkProfile p) fmtDate = .ok
      ["\n## Personal Information",
       "- Full Name: " ++ (p.first_name ++ (" " ++ (p.second_name ++ (" " ++ p.third_name)))),
       "- Student ID: " ++ p.student_id_number,
       "- Gender: " ++ p.gender,
       "- Passport Number: " ++ p.passport_number,
       "- Passport PIN: " ++ p.passport_pin,
       "- Phone: " ++ p.phone,
       "\n## Address Information",
       "- Country: " ++ p.country,
       "- Province: " ++ p.province,
       "- District: " ++ p.district,
       "- Address: " ++ p.address,
       "- Accommodation: " ++ p.accommodation,
       "\n## Academic Information",
       "- University: " ++ p.university,
       "- Faculty: " ++ (p.faculty_name ++ (" (" ++ (p.faculty_code ++ ")"))),
       "- Specialty: " ++ (p.specialty_name ++ (" (" ++ (p.specialty_code ++ ")"))),
       "- Group: " ++ p.group_name,
       "- Education Form: " ++ p.educationForm,
       "- Education Type: " ++ p.educationType,
       "- Education Language: " ++ p.educationLang,
       "- Payment Form: " ++ p.paymentForm,
       "- Course Level: " ++ p.level,
       "- Current Semester: " ++ p.semester,
       "- Academic Year: " ++ p.academic_year,
       "- Student Status: " ++ p.studentStatus] := by
    rfl
  have htask : formatTaskLines (mkTask t) fmtDT fmtMB fmtKB = .ok
      ["\n## " ++ t.name,
       "- **Maximum Score:** " ++ pyStr (.num t.max_ball)] := by
    rfl
  constructor
  · refine ⟨_, hprof, ?_⟩
    intro l hl
    simp only [List.mem_cons, List.not_mem_nil, or_false] at hl
    rcases hl with rfl | rfl | rfl | rfl | rfl | rfl | rfl | rfl | rfl | rfl | rfl |
      rfl | rfl | rfl | rfl | rfl | rfl | rfl | rfl | rfl | rfl | rfl | rfl | rfl |
      rfl | rfl
    all_goals first
      | exact ⟨by decide, by decide⟩
      | exact ⟨not_linePref_concat _ (by decide), not_linePref_concat _ (by decide)⟩
  · refine ⟨_, htask, ?_⟩
    intro l hl
    simp only [List.mem_cons, List.not_mem_nil, or_false] at hl
    rcases hl with rfl | rfl
    all_goals first
      | exact by decide
      | exact not_linePref_concat _ (by decide)

/-! ### No code path raises ZeroDivisionError except an actual division -/

theorem ok_ne_zeroDiv {β : Type} (x : β) :
    (Except.ok x : Except PyErr β) ≠ .error .zeroDiv := fun h => Except.noConfusion h

theorem error_ne_zeroDiv {β : Type} {e : PyErr} (he : e ≠ .zeroDiv) :
    (Except.error e : Except PyErr β) ≠ .error .zeroDiv :=
  fun h => he (Except.error.inj h)

theorem err_ne_of {α : Type} {e : Except PyErr α} {err : PyErr}
    (he : e ≠ .error .zeroDiv) (h : e = .error err) : err ≠ .zeroDiv :=
  fun hh => he (hh ▸ h)

theorem bind_ne_zeroDiv {α β : Type} {e : Except PyErr α} {f : α → Except PyErr β}
    (he : e ≠ .error .zeroDiv) (hf : ∀ a, f a ≠ .error .zeroDiv) :
    (e >>= f) ≠ .error .zeroDiv := by
  match e with
  | .error err =>
    show (Except.error err : Except PyErr β) ≠ .error .zeroDiv
    exact error_ne_zeroDiv (err_ne_of he rfl)
  | .ok a => exact hf a

theorem pyGet_ne_zeroDiv (j : Json) (k : String) : pyGet j k ≠ .error .zeroDiv := by
  cases j <;> simp [pyGet]

theorem pyGetD_ne_zeroDiv (j : Json) (k : String) (d : Json) :
    pyGetD j k d ≠ .error .zeroDiv := by
  cases j <;> simp [pyGetD]

theorem pyIndex_ne_zeroDiv (j : Json) (k : String) : pyIndex j k ≠ .error .zeroDiv := by
  cases j <;> simp only [pyIndex] <;> (try split) <;> simp

theorem pyDiv_ne_zeroDiv {a b : ℚ} (hb : b ≠ 0) : pyDiv a b ≠ .error .zeroDiv := by
  simp [pyDiv, hb]

theorem throw_ne_zeroDiv {β : Type} {e : PyErr} (he : e ≠ .zeroDiv) :
    (throw e : Except PyErr β) ≠ .error .zeroDiv := error_ne_zeroDiv he

theorem mapME_ne_zeroDiv {α β : Type} {l : List α} {f : α → Except PyErr β}
    (hf : ∀ x ∈ l, f x ≠ .error .zeroDiv) : mapME l f ≠ .error .zeroDiv := by
  induction l with
  | nil => exact ok_ne_zeroDiv _
  | cons x rest ih =>
    simp only [mapME]
    match hx : f x with
    | .error e =>
      exact error_ne_zeroDiv (err_ne_of (hf x (List.mem_cons_self ..)) hx)
    | .ok y =>
      match hr : mapME rest f with
      | .error e =>
        exact error_ne_zeroDiv
          (err_ne_of (ih (fun z hz => hf z (List.mem_cons_of_mem _ hz))) hr)
      | .ok ys => exact ok_ne_zeroDiv _

theorem exceptMap_ne_zeroDiv {α β : Type} {e : Except PyErr α} (g : α → β)
    (he : e ≠ .error .zeroDiv) : e.map g ≠ .error .zeroDiv := by
  match e with
  | .error err =>
    show (Except.error err : Except PyErr β) ≠ .error .zeroDiv
    exact error_ne_zeroDiv (err_ne_of he rfl)
  | .ok a => exact ok_ne_zeroDiv _

theorem keyedSortE_ne_zeroDiv (keyf : Json → Except PyErr Json) (desc : Bool)
    (l : List Json) (hk : ∀ x ∈ l, keyf x ≠ .error .zeroDiv) :
    keyedSortE keyf desc l ≠ .error .zeroDiv := by
  unfold keyedSortE
  match hm : mapME l (fun x => (keyf x).map (fun k => (k, x))) with
  | .error e =>
    exact error_ne_zeroDiv (err_ne_of
      (mapME_ne_zeroDiv (fun x hx => exceptMap_ne_zeroDiv _ (hk x hx))) hm)
  | .ok keyed =>
    dsimp only
    split
    · exact ok_ne_zeroDiv _
    · exact error_ne_zeroDiv (by simp)

theorem get_cached_token_ne_zeroDiv (mem : Mem) (fs : FileState) (now : Nat) :
    get_cached_token mem fs now ≠ .error .zeroDiv := by
  unfold get_cached_token
  split
  · split
    · exact error_ne_zeroDiv (by simp)
    · split
      · exact ok_ne_zeroDiv _
      · exact ok_ne_zeroDiv _
  · exact ok_ne_zeroDiv _

theorem login_ne_zeroDiv (env : Env) (mem : Mem) (fs : FileState) (now : Nat)
    (loginResp : Option Json) (writeOk : Bool) :
    login_to_hemis env mem fs now loginResp writeOk ≠ .error .zeroDiv := by
  unfold login_to_hemis
  match hc : get_cached_token mem fs now with
  | .error e =>
    exact error_ne_zeroDiv (err_ne_of (get_cached_token_ne_zeroDiv mem fs now) hc)
  | .ok (cached, mem₁) =>
    dsimp only
    split
    · exact ok_ne_zeroDiv _
    · split
      · exact ok_ne_zeroDiv _
      · match loginResp with
        | none => exact ok_ne_zeroDiv _
        | some resp =>
          dsimp only
          split
          · exact ok_ne_zeroDiv _
          · match hg : pyGet resp "success" with
            | .error e =>
              exact error_ne_zeroDiv (err_ne_of (pyGet_ne_zeroDiv resp "success") hg)
            | .ok succ =>
              dsimp only
              split
              · exact ok_ne_zeroDiv _
              · match hd : pyIndex resp "data" with
                | .error e =>
                  exact error_ne_zeroDiv (err_ne_of (pyIndex_ne_zeroDiv resp "data") hd)
                | .ok d =>
                  dsimp only
                  match ht : pyIndex d "token" with
                  | .error e =>
                    exact error_ne_zeroDiv (err_ne_of (pyIndex_ne_zeroDiv d "token") ht)
                  | .ok tok => exact ok_ne_zeroDiv _

theorem protectedTool_ne_zeroDiv (env : Env) (mem : Mem) (fs : FileState)
    (now : Nat) (loginResp : Option Json) (writeOk : Bool)
    (fetchResp : Option Json) (endpoint failMsg : String)
    (body : Json → Except PyErr String)
    (hbody : ∀ payload, body payload ≠ .error .zeroDiv) :
    protectedTool env mem fs now loginResp writeOk fetchResp endpoint failMsg body
      ≠ .error .zeroDiv := by
  unfold protectedTool
  match hl : login_to_hemis env mem fs now loginResp writeOk with
  | .error e =>
    exact error_ne_zeroDiv
      (err_ne_of (login_ne_zeroDiv env mem fs now loginResp writeOk) hl)
  | .ok (token, mem₁, fs₁, calls) =>
    dsimp only
    split
    · exact ok_ne_zeroDiv _
    · match fetchResp with
      | none => exact ok_ne_zeroDiv _
      | some data =>
        dsimp only
        split
        · exact ok_ne_zeroDiv _
        · match hg : pyGet data "success" with
          | .error e =>
            exact error_ne_zeroDiv (err_ne_of (pyGet_ne_zeroDiv data "success") hg)
          | .ok succ =>
            dsimp only
            split
            · exact ok_ne_zeroDiv _
            · match hd : pyIndex data "data" with
              | .error e =>
                exact error_ne_zeroDiv (err_ne_of (pyIndex_ne_zeroDiv data "data") hd)
              | .ok payload =>
                dsimp only
                match hb : body payload with
                | .error e =>
                  exact error_ne_zeroDiv (err_ne_of (hbody payload) hb)
                | .ok text => exact ok_ne_zeroDiv _

theorem attendanceDateStr_ne_zeroDiv (r : Json) (fmtDate : Int → String) :
    attendanceDateStr r fmtDate ≠ .error .zeroDiv := by
  unfold attendanceDateStr
  refine bind_ne_zeroDiv (pyGet_ne_zeroDiv _ _) (fun ld => ?_)
  split
  · refine bind_ne_zeroDiv (pyIndex_ne_zeroDiv _ _) (fun ld₂ => ?_)
    split
    · exact ok_ne_zeroDiv _
    · exact throw_ne_zeroDiv (by simp)
  · exact ok_ne_zeroDiv _

theorem formatAttendanceRecord_ne_zeroDiv (r : Json) (fmtDate : Int → String) :
    formatAttendanceRecord r fmtDate ≠ .error .zeroDiv := by
  unfold formatAttendanceRecord
  refine bind_ne_zeroDiv (attendanceDateStr_ne_zeroDiv _ _) (fun date => ?_)
  refine bind_ne_zeroDiv (pyGetD_ne_zeroDiv _ _ _) (fun tt => ?_)
  refine bind_ne_zeroDiv (pyGetD_ne_zeroDiv _ _ _) (fun ttn => ?_)
  refine bind_ne_zeroDiv (pyGetD_ne_zeroDiv _ _ _) (fun lp => ?_)
  refine bind_ne_zeroDiv (pyGetD_ne_zeroDiv _ _ _) (fun st => ?_)
  refine bind_ne_zeroDiv (pyGetD_ne_zeroDiv _ _ _) (fun et => ?_)
  refine bind_ne_zeroDiv (pyGetD_ne_zeroDiv _ _ _) (fun emp => ?_)
  refine bind_ne_zeroDiv (pyGetD_ne_zeroDiv _ _ _) (fun empName => ?_)
  refine bind_ne_zeroDiv (pyGet_ne_zeroDiv _ _) (fun aOn => ?_)
  refine bind_ne_zeroDiv (pyGet_ne_zeroDiv _ _) (fun aOff => ?_)
  refine bind_ne_zeroDiv (pyGet_ne_zeroDiv _ _) (fun ex => ?_)
  exact ok_ne_zeroDiv _

/-- C10 — `get_student_attendance` never raises `ZeroDivisionError`, for
every environment, cache state and payload: the attendance-rate division is
reached only in the non-empty branch, where its divisor is the number of
records, at least 1. -/
theorem c10_attendance_no_zero_division (env : Env) (mem : Mem) (fs : FileState)
    (now : Nat) (loginResp : Option Json) (writeOk : Bool) (fetchResp : Option Json)
    (fmtDate : Int → String) (fmtRate : ℚ → String)
    (subject semester language : String) :
    get_student_attendance env mem fs now loginResp writeOk fetchResp
      fmtDate fmtRate subject semester language ≠ .error .zeroDiv := by
  refine protectedTool_ne_zeroDiv _ _ _ _ _ _ _ _ _ _ (fun records => ?_)
  dsimp only
  split
  · exact ok_ne_zeroDiv _
  · match records with
    | .null | .bool _ | .num _ | .str _ | .obj _ => exact error_ne_zeroDiv (by simp)
    | .arr l =>
      match l with
      | [] => exact error_ne_zeroDiv (by simp)
      | first :: rest =>
        refine bind_ne_zeroDiv (pyGetD_ne_zeroDiv _ _ _) (fun subjInfo => ?_)
        refine bind_ne_zeroDiv (pyGetD_ne_zeroDiv _ _ _) (fun sname => ?_)
        refine bind_ne_zeroDiv (pyGetD_ne_zeroDiv _ _ _) (fun scode => ?_)
        refine bind_ne_zeroDiv (mapME_ne_zeroDiv (fun r _ => ?_)) (fun absents => ?_)
        · refine bind_ne_zeroDiv (pyGet_ne_zeroDiv _ _) (fun aOn => ?_)
          refine bind_ne_zeroDiv (pyGet_ne_zeroDiv _ _) (fun aOff => ?_)
          exact ok_ne_zeroDiv _
        refine bind_ne_zeroDiv (mapME_ne_zeroDiv (fun r _ => ?_)) (fun expl => ?_)
        · refine bind_ne_zeroDiv (pyGet_ne_zeroDiv _ _) (fun aOn => ?_)
          refine bind_ne_zeroDiv (pyGet_ne_zeroDiv _ _) (fun aOff => ?_)
          refine bind_ne_zeroDiv (pyGet_ne_zeroDiv _ _) (fun ex => ?_)
          exact ok_ne_zeroDiv _
        refine bind_ne_zeroDiv (pyDiv_ne_zeroDiv ?_) (fun rate => ?_)
        · have : ((first :: rest).length : ℚ) = (rest.length + 1 : ℕ) := by
            simp [List.length_cons]
          rw [this]
          exact_mod_cast Nat.succ_ne_zero rest.length
        refine bind_ne_zeroDiv
          (keyedSortE_ne_zeroDiv _ _ _ (fun r _ => pyGetD_ne_zeroDiv _ _ _))
          (fun sorted => ?_)
        refine bind_ne_zeroDiv
          (mapME_ne_zeroDiv (fun r _ => formatAttendanceRecord_ne_zeroDiv _ _))
          (fun recLines => ?_)
        exact ok_ne_zeroDiv _

/-- C3 — when the LLM's first completion requests the invocations `[a, b]`
and both argument decodes and both tool calls succeed, `process_query`
appends exactly two tool-result messages, carrying `a.id` then `b.id`, in
the order the LLM produced the invocations, and the invocation trace shows
the tools were invoked sequentially in that same order. -/
theorem c3_tool_round_order (query : String) (content : Option String)
    (a b : ToolCall) (ja jb : Json) (ra rb : String)
    (callTool : String → Json → Except PyErr String)
    (jsonParse : String → Option Json) (finalContent : String)
    (hja : jsonParse a.arguments = some ja)
    (hca : callTool a.name ja = .ok ra)
    (hjb : jsonParse b.arguments = some jb)
    (hcb : callTool b.name jb = .ok rb) :
    ∃ finalText,
      process_query query ⟨content, [a, b]⟩ callTool jsonParse finalContent
        = .ok ([.user query, .assistant content [a, b],
                .toolResult a.id ra, .toolResult b.id rb],
               finalText,
               [(a.name, ja), (b.name, jb)]) := by
  unfold process_query
  have hrun : runToolCalls callTool jsonParse [a, b]
      = .ok ([.toolResult a.id ra, .toolResult b.id rb],
             [("[Calling tool " ++ (a.name ++ (" with args " ++ (pyStr ja ++ "]")))),
              ("[Calling tool " ++ (b.name ++ (" with args " ++ (pyStr jb ++ "]"))))],
             [(a.name, ja), (b.name, jb)]) := by
    have hrun2 : runToolCalls callTool jsonParse [b]
        = .ok ([.toolResult b.id rb],
               [("[Calling tool " ++ (b.name ++ (" with args " ++ (pyStr jb ++ "]"))))],
               [(b.name, jb)]) := by
      unfold runToolCalls
      rw [hjb]
      dsimp only
      rw [hcb]
      dsimp only
      rfl
    unfold runToolCalls
    rw [hja]
    dsimp only
    rw [hca]
    dsimp only
    rw [hrun2]
  refine ⟨String.intercalate "\n" ((content.getD "")
    :: ["[Calling tool " ++ (a.name ++ (" with args " ++ (pyStr ja ++ "]"))),
        "[Calling tool " ++ (b.name ++ (" with args " ++ (pyStr jb ++ "]")))]
    ++ [finalContent]), ?_⟩
  simp only [List.isEmpty_cons, Bool.false_eq_true, if_false, hrun]
  rfl

/-- C3 witness: two concrete invocations with ids "1" and "2". -/
theorem c3_tool_round_order_witness :
    ∃ finalText,
      process_query "list my documents" ⟨some "looking", [⟨"1", "toolA", "argsA"⟩, ⟨"2", "toolB", "argsB"⟩]⟩
        (fun n _ => .ok ("result-" ++ n))
        (fun s => if s = "argsA" then some (.obj []) else
                  if s = "argsB" then some (.obj []) else none)
        "done"
        = .ok ([.user "list my documents",
                .assistant (some "looking") [⟨"1", "toolA", "argsA"⟩, ⟨"2", "toolB", "argsB"⟩],
                .toolResult "1" "result-toolA", .toolResult "2" "result-toolB"],
               finalText,
               [("toolA", .obj []), ("toolB", .obj [])]) :=
  c3_tool_round_order "list my documents" (some "looking")
    ⟨"1", "toolA", "argsA"⟩ ⟨"2", "toolB", "argsB"⟩ (.obj []) (.obj [])
    "result-toolA" "result-toolB"
    (fun n _ => .ok ("result-" ++ n))
    (fun s => if s = "argsA" then some (.obj []) else
              if s = "argsB" then some (.obj []) else none)
    "done" rfl rfl rfl rfl

/-- C4 counterexample: a single requested invocation whose JSON arguments
fail to decode aborts the whole round — `process_query` propagates the
`ValueError` from `json.loads`; no error-bearing tool-result message is
recorded and no final completion is produced. -/
theorem c4_decode_failure_counterexample :
    process_query "q" ⟨some "", [⟨"1", "toolA", "not json"⟩]⟩
      (fun _ _ => .ok "r") (fun _ => none) "final" = .error .valueErr := by
  rfl

/-- C4 (amended): a tool invocation whose JSON arguments fail to decode, or
whose downstream MCP call raises, aborts the round: `process_query`
propagates the exception (the surrounding chat loop catches it per turn),
no tool-result carrying an error description is recorded, and the final
completion does not take place. -/
theorem c4_failure_aborts_round (query : String) (content : Option String)
    (tc : ToolCall) (rest : List ToolCall)
    (callTool : String → Json → Except PyErr String)
    (jsonParse : String → Option Json) (finalContent : String) :
    (jsonParse tc.arguments = none →
      process_query query ⟨content, tc :: rest⟩ callTool jsonParse finalContent
        = .error .valueErr) ∧
    (∀ j e, jsonParse tc.arguments = some j → callTool tc.name j = .error e →
      process_query query ⟨content, tc :: rest⟩ callTool jsonParse finalContent
        = .error e) := by
  constructor
  · intro hj
    unfold process_query
    simp only [List.isEmpty_cons, Bool.false_eq_true, if_false]
    unfold runToolCalls
    rw [hj]
  · intro j e hj hc
    unfold process_query
    simp only [List.isEmpty_cons, Bool.false_eq_true, if_false]
    unfold runToolCalls
    rw [hj]
    dsimp only
    rw [hc]


/-- C4 witness: a concrete aborted round for each failure mode. -/
theorem c4_failure_aborts_round_witness :
    process_query "q1" ⟨some "", [⟨"1", "toolA", "oops"⟩]⟩
      (fun _ _ => .ok "r") (fun _ => none) "final" = .error .valueErr ∧
    process_query "q2" ⟨some "", [⟨"1", "toolA", "ok"⟩]⟩
      (fun _ _ => .error .typeErr) (fun _ => some (.obj [])) "final"
      = .error .typeErr :=
  ⟨(c4_failure_aborts_round "q1" (some "") ⟨"1", "toolA", "oops"⟩ []
      (fun _ _ => .ok "r") (fun _ => none) "final").1 rfl,
   (c4_failure_aborts_round "q2" (some "") ⟨"1", "toolA", "ok"⟩ []
      (fun _ _ => .error .typeErr) (fun _ => some (.obj [])) "final").2
     (.obj []) .typeErr rfl rfl⟩

end Hemis
